import Mathlib

/-!
# abrt-applet: seen-list diff, notification decision, handler runs, deferred queue

A shallow embedding of `src/applet/applet.c`, with the two event methods of
`src/Applet/CCApplet.cpp` at the end of the definitions.

* C strings are the lists of their bytes (the terminating NUL excluded).
* `GList *` is a Lean list; a `GList **` out-parameter that may be `NULL`
  is an `Option (List _)`.
* Library functions (`strcmp`, `g_list_sort`, `g_strsplit`, `strchr`,
  `strtoul`, the wait-status macros) are modelled by their documented
  behaviour.
* The globals of the applet, the idle sources it attaches and the
  notifications and handler sessions it produces form one state value;
  what the surroundings answer (settings, network monitor, installed
  applications, directory ownership) is an environment value.
* A function that can dereference `NULL` returns an `Option`; `none` is the
  fault.
-/

namespace Applet

/-! ## Strings and the library functions used by `new_dir_exists` -/

/-- The content of a C string: its bytes up to, not including, the NUL. -/
abbrev CStr := List Nat

/-- The libc `strcmp`: negative, zero or positive as the first string is
lexicographically below, equal to or above the second one.  A string that
ends first is the smaller one (its NUL is below every content byte). -/
def strcmp : CStr → CStr → Int
  | [], [] => 0
  | [], _ :: _ => -1
  | _ :: _, [] => 1
  | a :: as, b :: bs => if a = b then strcmp as bs else (a : Int) - (b : Int)

/-- The order `g_list_sort` derives from its compare function: `a` may stay
in front of `b` when `strcmp a b <= 0`. -/
def strcmp_le (a b : CStr) : Prop := strcmp a b ≤ 0

instance strcmp_le_decidable : DecidableRel strcmp_le :=
  fun a b => inferInstanceAs (Decidable (strcmp a b ≤ 0))

/-- The GLib `g_list_sort (list, (GCompareFunc)strcmp)`: a stable sort. -/
def g_list_sort (l : List CStr) : List CStr := l.insertionSort strcmp_le

/-! ## `new_dir_exists` -/

/-- The variables of the two-pointer loop of `new_dir_exists`. -/
structure merge_state where
  /-- Cursor into the sorted current list. -/
  l1 : List CStr
  /-- Cursor into the sorted old list. -/
  l2 : List CStr
  /-- The C `int different`. -/
  different : Int
  /-- The list behind the `new_dirs` out-parameter (`none`: `new_dirs == NULL`). -/
  new_dirs : Option (List CStr)
deriving DecidableEq

/-- The loop `while (l1 && l2) ...` of `new_dir_exists` (lines 281-298).
Every iteration advances `l1` or `l2`, so `fuel = |l1| + |l2|` iterations
are enough; the caller supplies that many. -/
def merge_loop : Nat → merge_state → merge_state
  | 0, s => s
  | fuel + 1, s =>
    match s.l1, s.l2 with
    | a :: r1, b :: r2 =>
      let diff := strcmp a b
      let different := Int.lor s.different diff
      if diff < 0 then
        -- *new_dirs = g_list_prepend(*new_dirs, xstrdup(l1->data)); l1 = next
        merge_loop fuel
          { l1 := r1, l2 := b :: r2, different := different,
            new_dirs := s.new_dirs.map (fun n => a :: n) }
      else
        -- l2 = next; if (diff == 0) l1 = next
        merge_loop fuel
          { l1 := if diff = 0 then r1 else a :: r1, l2 := r2, different := different,
            new_dirs := s.new_dirs }
    | _, _ => s

/-- The loop `while (l1) { *new_dirs = g_list_prepend(*new_dirs, ...); l1 = next }`
(lines 303-308). -/
def prepend_rest : List CStr → List CStr → List CStr
  | [], n => n
  | a :: r, n => prepend_rest r (a :: n)

/-- The loop of lines 316-320 of `new_dir_exists`: the text its `fprintf`
calls produce, every entry followed by a newline. -/
def write_dirlist : List CStr → List Nat
  | [] => []
  | a :: r => a ++ [10] ++ write_dirlist r

/-- What a call of `new_dir_exists` does. -/
structure dirlist_outcome where
  /-- The list behind `new_dirs` after the call (`none`: `NULL` was passed). -/
  new_dirs : Option (List CStr)
  /-- The text the call sends to the truncated `applet_dirlist` (`none`: it
  writes nothing, the file is not opened or not touched). -/
  written : Option (List Nat)
  /-- Whether the `rewind`/`ftruncate`/`fprintf` block (lines 311-321) ran. -/
  rewritten : Bool
deriving DecidableEq

/-- The function `new_dir_exists(GList **new_dirs)`.

* `dirlist` is the list enumerated from `s_dirs` (lines 243-250);
* `fp` is the result of the two `fopen` calls followed by the
  `xmalloc_fgetline` loop: `none` when the file could not be opened,
  otherwise its lines (no lines when it was just created);
* `new_dirs` is the list the out-parameter points to, `none` for `NULL`. -/
def new_dir_exists (dirlist : List CStr) (fp : Option (List CStr))
    (new_dirs : Option (List CStr)) : dirlist_outcome :=
  match fp with
  | none => { new_dirs := new_dirs, written := none, rewritten := false }
  | some old_dirlist =>
    let l1 := g_list_sort dirlist
    let l2 := g_list_sort old_dirlist
    let s := merge_loop (l1.length + l2.length)
      { l1 := l1, l2 := l2, different := 0, new_dirs := new_dirs }
    -- different |= (l1 != NULL);
    let different := Int.lor s.different (if s.l1 ≠ [] then 1 else 0)
    -- if (different && new_dirs) while (l1) ...
    let new_dirs1 :=
      if different ≠ 0 then s.new_dirs.map (fun n => prepend_rest s.l1 n) else s.new_dirs
    -- if (different || l2) { rewrite the file from dirlist }
    if different ≠ 0 ∨ s.l2 ≠ [] then
      { new_dirs := new_dirs1, written := some (write_dirlist l1), rewritten := true }
    else
      { new_dirs := new_dirs1, written := none, rewritten := false }

/-- The loop of lines 265-268 of `new_dir_exists`, which reads the store with
`xmalloc_fgetline`: the lines of the text in order, without their newlines;
text after the last newline is a line as well.  The text is one without NUL
bytes, as is every text the `fprintf` calls of lines 316-320 produce. -/
def read_lines_from : CStr → List Nat → List CStr
  | line, [] => if line = [] then [] else [line]
  | line, c :: rest =>
    if c = 10 then line :: read_lines_from [] rest else read_lines_from (line ++ [c]) rest

/-- The lines `new_dir_exists` reads from a store holding `text`. -/
def read_lines (text : List Nat) : List CStr := read_lines_from [] text

/-- What the stream calls of lines 313-322 (`rewind`, `ftruncate`, `fprintf`,
`fclose`) come to.  The code does not look at their results. -/
inductive write_io where
  /-- Every call succeeded. -/
  | done
  /-- A call failed; the store is left holding `left`. -/
  | failed (left : List Nat)
deriving DecidableEq

/-- The text of the store after a call of `new_dir_exists`, from the text
before it. -/
def store_after (before : List Nat) (out : dirlist_outcome) (io : write_io) : List Nat :=
  match out.written with
  | none => before
  | some text =>
    match io with
    | .done => text
    | .failed left => left

/-- The state in which the loop of `new_dir_exists` ends. -/
def final_state (dirlist old : List CStr) (n : Option (List CStr)) : merge_state :=
  merge_loop ((g_list_sort dirlist).length + (g_list_sort old).length)
    ⟨g_list_sort dirlist, g_list_sort old, 0, n⟩

/-! ## Problems and the notification decision of `notify_problem_list` -/

/-- The C `problem_info_t`; `dir` is the `CD_DUMPDIR` element of `problem_data`. -/
structure problem_info where
  dir : Option CStr
  foreign : Bool
  count : Nat
  is_packaged : Bool
  /-- The field `command_line`; `none` is the `NULL` pointer. -/
  command_line : Option CStr
  known : Bool
  reported : Bool
  was_announced : Bool
  is_writable : Bool
deriving DecidableEq

/-- What the applet reads from a `GAppInfo`. -/
structure GAppInfo where
  should_show : Bool
  executable : CStr
  commandline : CStr
  display_name : CStr
deriving DecidableEq

/-- The pieces of a non-empty string between the occurrences of a space. -/
def split_on_space : CStr → List CStr
  | [] => [[]]
  | c :: cs =>
    if c = 32 then [] :: split_on_space cs
    else
      match split_on_space cs with
      | [] => [[c]]
      | t :: ts => (c :: t) :: ts

/-- The GLib `g_strsplit` with a single space as delimiter and no token limit,
on a non-`NULL` string: the empty string gives the empty vector. -/
def g_strsplit (s : CStr) : List CStr :=
  if s = [] then [] else split_on_space s

/-- The function `get_argv0`.  The outer `none` is the fault of reading
`items[0]` when `g_strsplit` was handed `NULL` and returned `NULL`; the inner
option is the returned pointer (`g_strdup (NULL)` is `NULL`). -/
def get_argv0 (cmdline : Option CStr) : Option (Option CStr) :=
  match cmdline with
  | none => none
  | some c => some (g_strsplit c).head?

/-- The function `is_app_running`: `return FALSE;`. -/
def is_app_running (_app : Option GAppInfo) : Bool := false

/-- The format strings of `notify_problem_list`, by first line of use. -/
inductive notify_format where
  /-- Line 786: the named application crashed, the problem has been automatically reported. -/
  | app_auto_reported
  /-- Line 791: the named application crashed, the problem will be reported when the internet is available. -/
  | app_report_when_online
  /-- Lines 797, 811 and 839: the named program crashed, please contact the developer. -/
  | crashed_contact_developer
  /-- Line 805: the named application crashed, please send a report. -/
  | app_send_report
  /-- Line 824: a problem occurred in a component, it has been automatically reported. -/
  | component_auto_reported
  /-- Line 828: a problem occurred in a component, it will be reported when the internet is available. -/
  | component_report_when_online
  /-- Line 833: a problem occurred, please send a report. -/
  | problem_send_report
deriving DecidableEq

/-- The string `notify_body`: a format and the argument of its placeholder. -/
structure notify_text where
  format : notify_format
  arg : Option CStr
deriving DecidableEq

/-- The locals `notify_body`, `report_button`, `restart_button` at line 846. -/
structure directive where
  notify_body : Option notify_text
  report_button : Bool
  restart_button : Bool
deriving DecidableEq

/-- Lines 770-844 of `notify_problem_list`: the decision for one problem,
given the result `app` of `create_app_from_cmdline`.  The result `none` is
the fault of `get_argv0` on a `NULL` command line. -/
def notify_problem_list_decide (auto_reporting network_available : Bool)
    (app : Option GAppInfo) (pi : problem_info) : Option directive :=
  let is_packaged := pi.is_packaged
  let is_running_again := is_app_running app
  let is_current_user := !pi.foreign
  let already_reported := decide (pi.count > 1)
  match app with
  | some a =>
    let restart_button := is_current_user && !is_running_again
    if auto_reporting then
      if is_packaged then
        if network_available then
          some ⟨some ⟨.app_auto_reported, some a.display_name⟩, false, restart_button⟩
        else
          some ⟨some ⟨.app_report_when_online, some a.display_name⟩, false, restart_button⟩
      else if !already_reported then
        some ⟨some ⟨.crashed_contact_developer, some a.display_name⟩, false, restart_button⟩
      else
        some ⟨none, false, restart_button⟩
    else
      if is_packaged then
        some ⟨some ⟨.app_send_report, some a.display_name⟩, true, restart_button⟩
      else if !already_reported then
        some ⟨some ⟨.crashed_contact_developer, some a.display_name⟩, false, restart_button⟩
      else
        some ⟨none, false, restart_button⟩
  | none =>
    if !already_reported then
      if auto_reporting && is_packaged then
        if network_available then
          some ⟨some ⟨.component_auto_reported, none⟩, false, false⟩
        else
          some ⟨some ⟨.component_report_when_online, none⟩, false, false⟩
      else if !auto_reporting then
        some ⟨some ⟨.problem_send_report, none⟩, true, false⟩
      else
        match get_argv0 pi.command_line with
        | none => none
        | some binary => some ⟨some ⟨.crashed_contact_developer, binary⟩, false, false⟩
    else
      some ⟨none, false, false⟩

/-- The libnotify action keys `A_REPORT_REPORT` and `A_RESTART_APPLICATION`. -/
inductive notify_action where
  | REPORT
  | RESTART
deriving DecidableEq

/-- A notification handed to `notify_notification_show`. -/
structure notification where
  body : notify_text
  actions : List notify_action
deriving DecidableEq

/-- Lines 846-870 of `notify_problem_list`: without a message the iteration
`continue`s; otherwise the problem is marked announced and the notification
is built with the chosen buttons.  The notification is then passed to
`notify_notification_show` (lines 872-879), whose result `notify_problem_list`
records. -/
def notify_problem_list_show (pi : problem_info) (d : directive) :
    problem_info × Option notification :=
  match d.notify_body with
  | none => (pi, none)
  | some body =>
    ({ pi with was_announced := true },
      some ⟨body, (if d.report_button then [notify_action.REPORT] else []) ++
        (if d.restart_button then [notify_action.RESTART] else [])⟩)

/-- One iteration of the `for` loop of `notify_problem_list` after line 761. -/
def notify_problem_list_iter (auto_reporting network_available : Bool)
    (app : Option GAppInfo) (pi : problem_info) :
    Option (problem_info × Option notification) :=
  (notify_problem_list_decide auto_reporting network_available app pi).map
    (notify_problem_list_show pi)

/-! ## The decision table as the specification words it -/

/-- The message variants of the decision table in the specification. -/
inductive message_variant where
  | auto_reported
  | report_when_online
  | contact_developer
  | send_report
deriving DecidableEq

/-- The variant a format string of the code stands for. -/
def notify_format.variant : notify_format → message_variant
  | .app_auto_reported => .auto_reported
  | .app_report_when_online => .report_when_online
  | .crashed_contact_developer => .contact_developer
  | .app_send_report => .send_report
  | .component_auto_reported => .auto_reported
  | .component_report_when_online => .report_when_online
  | .problem_send_report => .send_report

/-- The documented decision table, first matching row first; `none` is
suppress, otherwise the message variant and the report-button flag. -/
def spec_decision_table (is_app auto_reporting is_packaged network_available
    already_reported : Bool) : Option (message_variant × Bool) :=
  if is_app then
    if auto_reporting && is_packaged && network_available then
      some (.auto_reported, false)
    else if auto_reporting && is_packaged && !network_available then
      some (.report_when_online, false)
    else if !is_packaged && !already_reported then
      some (.contact_developer, false)
    else if !is_packaged && already_reported then
      none
    else
      -- auto-reporting disabled, packaged
      some (.send_report, true)
  else
    if already_reported then
      none
    else if auto_reporting && is_packaged && network_available then
      some (.auto_reported, false)
    else if auto_reporting && is_packaged && !network_available then
      some (.report_when_online, false)
    else if !auto_reporting then
      some (.send_report, true)
    else
      -- auto-reporting enabled, unpackaged
      some (.contact_developer, false)

/-! ## The environment and the globals of the applet -/

/-- What the applet asks of its surroundings during one callback. -/
structure applet_env where
  /-- The result of `is_autoreporting_enabled ()`. -/
  auto_reporting : Bool
  /-- The result of `g_network_monitor_get_network_available (netmon)`. -/
  network_available : Bool
  /-- Whether `g_network_monitor_get_connectivity (netmon)` is `G_NETWORK_CONNECTIVITY_FULL`. -/
  connectivity_full : Bool
  /-- Lines 529-569 of `create_app_from_cmdline` on a command line that is not
  `NULL`: the search through the applications `g_app_info_get_all ()` lists. -/
  find_app : CStr → Option GAppInfo
  /-- The result of `get_autoreport_event_name ()`. -/
  autoreport_event_name : CStr
  /-- Whether `notify_notification_show` succeeds for a notification, leaving
  `err` as `NULL`. -/
  notify_notification_show : notification → Bool
  /-- The result of `chown_dir_over_dbus` on a directory. -/
  chown_dir_over_dbus : Option CStr → Int
  /-- The result of `open_directory_for_writing`: `none` for `NULL`, otherwise
  the `dd_dirname` of the opened directory. -/
  open_directory_for_writing : Option CStr → Option CStr

/-- The function `is_networking_enabled`. -/
def is_networking_enabled (env : applet_env) : Bool :=
  if !env.network_available then false else env.connectivity_full

/-- The function `create_app_from_cmdline`: it begins with `get_argv0`, whose
fault on a `NULL` command line is the outer `none`. -/
def create_app_from_cmdline (env : applet_env) (cmdline : Option CStr) :
    Option (Option GAppInfo) :=
  match get_argv0 cmdline, cmdline with
  | some _, some c => some (env.find_app c)
  | _, _ => none

/-- The C `struct event_processing_state` of one running handler. -/
structure event_processing_state where
  /-- The content of the `cmd_output` string buffer. -/
  cmd_output : CStr
  pi : problem_info
  /-- The event name the child was started with. -/
  event_name : CStr
deriving DecidableEq

/-- The data pointer handed to `g_idle_add`: the value of
`g_deferred_crash_queue` at that moment. -/
inductive queue_ptr where
  /-- The queue was `NULL`. -/
  | null
  /-- The first node of the deferred queue. -/
  | head
deriving DecidableEq

/-- The globals of the applet, the idle sources it has attached to the main
loop, and what it has done so far. -/
structure applet_state where
  g_deferred_crash_queue : List problem_info
  g_deferred_timeout : Nat
  g_last_notified_problem_id : Option CStr
  /-- The attached sources running `process_deferred_queue_timeout_fn`: their
  identifiers and data pointers. -/
  idle_sources : List (Nat × queue_ptr)
  /-- The notifications passed to `notify_notification_show`, oldest first. -/
  shown : List notification
  /-- Those of them for which `notify_notification_show` succeeded. -/
  displayed : List notification
  /-- The handler sessions started by `run_event_async`, oldest first. -/
  sessions : List event_processing_state
deriving DecidableEq

/-- The function `push_to_deferred_queue`. -/
def push_to_deferred_queue (st : applet_state) (pi : problem_info) : applet_state :=
  { st with g_deferred_crash_queue := st.g_deferred_crash_queue ++ [pi] }

/-! ## `notify_problem_list` -/

/-- The `for` loop of `notify_problem_list` (lines 754-880): the problems as
the loop leaves them, each with the notification passed to
`notify_notification_show` for it.  A fault in one
iteration is a fault of the loop. -/
def notify_problem_list_loop (env : applet_env) :
    List problem_info → Option (List (problem_info × Option notification))
  | [] => some []
  | pi :: rest =>
    match create_app_from_cmdline env pi.command_line with
    | none => none
    | some app =>
      match notify_problem_list_iter env.auto_reporting (is_networking_enabled env) app pi with
      | none => none
      | some r =>
        match notify_problem_list_loop env rest with
        | none => none
        | some rs => some (r :: rs)

/-- The function `notify_problem_list`: the globals after the call and the
problems as it leaves them; `none` is a fault. -/
def notify_problem_list (env : applet_env) (st : applet_state) (problems : List problem_info) :
    Option (applet_state × List problem_info) :=
  match problems.getLast? with
  | none => some (st, problems)
  | some last_problem =>
    match notify_problem_list_loop env problems with
    | none => none
    | some rs =>
      some ({ st with
                g_last_notified_problem_id := last_problem.dir,
                shown := st.shown ++ rs.filterMap (fun r => r.2),
                displayed := st.displayed ++
                  (rs.filterMap (fun r => r.2)).filter env.notify_notification_show },
            rs.map (fun r => r.1))

/-- The function `notify_problem`. -/
def notify_problem (env : applet_env) (st : applet_state) (pi : problem_info) :
    Option (applet_state × List problem_info) :=
  notify_problem_list env st [pi]

/-! ## `handle_event_output_cb` -/

/-- The libc `strchr (raw, 10)` on the rest of `buf`, which ends in the NUL
stored at `buf[r]`: the offset of the first newline in front of any NUL. -/
def strchr_newline : List Nat → Option Nat
  | [] => none
  | c :: cs =>
    if c = 10 then some 0
    else if c = 0 then none
    else (strchr_newline cs).map (fun i => i + 1)

/-- The C string that starts at `raw`: its bytes in front of the first NUL. -/
def c_string_at (raw : List Nat) : CStr := raw.takeWhile (fun c => c ≠ 0)

/-- The loop `while ((newline = strchr(raw, 10)) != NULL)` with the append
that follows it (lines 921-937): the buffer `cmd_output` and the lines passed
to `log_debug`, oldest first.  Every iteration moves `raw` forward, so the
length of `raw` is enough fuel. -/
def split_lines : Nat → List Nat → CStr → List CStr → CStr × List CStr
  | 0, raw, cmd_output, logged => (cmd_output ++ c_string_at raw, logged)
  | fuel + 1, raw, cmd_output, logged =>
    match strchr_newline raw with
    | some i =>
      -- *newline = 0; strbuf_append_str; log_debug; strbuf_clear; raw = newline + 1
      split_lines fuel (raw.drop (i + 1)) [] (logged ++ [cmd_output ++ raw.take i])
    | none => (cmd_output ++ c_string_at raw, logged)

/-- One pass of the `for (;;)` loop of `handle_event_output_cb` for a read
that returned the bytes `chunk` with `G_IO_STATUS_NORMAL`. -/
def read_chunk (cmd_output : CStr) (logged : List CStr) (chunk : List Nat) :
    CStr × List CStr :=
  split_lines chunk.length chunk cmd_output logged

/-- The passes of the `for (;;)` loop for successive reads. -/
def read_chunks : CStr → List CStr → List (List Nat) → CStr × List CStr
  | cmd_output, logged, [] => (cmd_output, logged)
  | cmd_output, logged, chunk :: rest =>
    read_chunks (read_chunk cmd_output logged chunk).1 (read_chunk cmd_output logged chunk).2 rest

/-- The macro `WIFEXITED` of the C library. -/
def WIFEXITED (status : Nat) : Bool := status % 128 == 0

/-- The macro `WEXITSTATUS` of the C library. -/
def WEXITSTATUS (status : Nat) : Nat := (status / 256) % 256

/-- Lines 943-951 of `handle_event_output_cb`: `status` starts as 1 and is
filled in by a `safe_waitpid` that succeeds (`wait` is what it stored); an
exit with `EXIT_STOP_EVENT_RUN` marks the problem known and counts as 0. -/
def handle_event_status (EXIT_STOP_EVENT_RUN : Nat) (wait : Option Nat) (pi : problem_info) :
    Nat × problem_info :=
  let status := wait.getD 1
  if WIFEXITED status && WEXITSTATUS status == EXIT_STOP_EVENT_RUN then
    (0, { pi with known := true })
  else
    (status, pi)

/-- Lines 942-967 of `handle_event_output_cb`, reached on end of file or on a
read error. -/
def handle_event_exit (EXIT_STOP_EVENT_RUN : Nat) (env : applet_env) (st : applet_state)
    (wait : Option Nat) (pi : problem_info) : Option (applet_state × List problem_info) :=
  let r := handle_event_status EXIT_STOP_EVENT_RUN wait pi
  if r.1 = 0 then
    -- fast report finished successfully
    notify_problem env st { r.2 with reported := true }
  else
    -- fast report failed
    if is_networking_enabled env then notify_problem env st r.2
    else some (push_to_deferred_queue st r.2, [r.2])

/-- How the reads of one call of `handle_event_output_cb` end. -/
inductive read_end where
  /-- The status `G_IO_STATUS_AGAIN`. -/
  | again
  /-- The status `G_IO_STATUS_EOF`. -/
  | eof
  /-- The status `G_IO_STATUS_ERROR`. -/
  | error
deriving DecidableEq

/-- What one call of `handle_event_output_cb` leaves behind. -/
structure output_cb_result where
  /-- The return value: `TRUE` keeps the watch. -/
  keep : Bool
  st : applet_state
  /-- The session, `none` once `free_event_processing_state` ran. -/
  session : Option event_processing_state
  /-- The lines passed to `log_debug` by the line splitter. -/
  logged : List CStr
  /-- The problem as the call leaves it. -/
  problems : List problem_info
deriving DecidableEq

/-- The function `handle_event_output_cb`, for a call whose reads return the
chunks `chunks` and then end as `last` says; `wait` is what `safe_waitpid`
stored.  The result `none` is a fault. -/
def handle_event_output_cb (EXIT_STOP_EVENT_RUN : Nat) (env : applet_env) (st : applet_state)
    (state : event_processing_state) (chunks : List (List Nat)) (last : read_end)
    (wait : Option Nat) : Option output_cb_result :=
  let r := read_chunks state.cmd_output [] chunks
  match last with
  | .again =>
    some { keep := true, st := st, session := some { state with cmd_output := r.1 },
           logged := r.2, problems := [state.pi] }
  | _ =>
    match handle_event_exit EXIT_STOP_EVENT_RUN env st wait state.pi with
    | none => none
    | some out =>
      some { keep := false, st := out.1, session := none, logged := r.2, problems := out.2 }

/-! ## `run_event_async` and `show_problem_list_notification` -/

/-- The function `problem_info_ensure_writable`: its return value and the
problem as it leaves it. -/
def problem_info_ensure_writable (env : applet_env) (pi : problem_info) : Bool × problem_info :=
  if pi.is_writable then (true, pi)
  else
    let res := env.chown_dir_over_dbus pi.dir
    if pi.foreign && res != 0 then (false, pi)
    else
      let pi1 := { pi with foreign := false }
      match env.open_directory_for_writing pi1.dir with
      | none => (false, pi1)
      | some dd_dirname => (true, { pi1 with dir := some dd_dirname, is_writable := true })

/-- The function `run_event_async`: a problem that cannot be made writable is
freed and nothing else happens; otherwise a handler is started and watched. -/
def run_event_async (env : applet_env) (st : applet_state) (pi : problem_info)
    (event_name : CStr) : applet_state :=
  if !(problem_info_ensure_writable env pi).1 then st
  else
    { st with sessions := st.sessions ++
        [{ cmd_output := [], pi := (problem_info_ensure_writable env pi).2,
           event_name := event_name }] }

/-- The loop of `show_problem_list_notification` that runs while automatic
reporting is enabled (lines 1043-1055): problems that are not foreign go to
`run_event_async` and leave the list. -/
def autoreport_own_problems (env : applet_env) :
    applet_state → List problem_info → applet_state × List problem_info
  | st, [] => (st, [])
  | st, data :: next =>
    if !data.foreign then
      autoreport_own_problems env (run_event_async env st data env.autoreport_event_name) next
    else
      ((autoreport_own_problems env st next).1, data :: (autoreport_own_problems env st next).2)

/-- The function `show_problem_list_notification`. -/
def show_problem_list_notification (env : applet_env) (st : applet_state)
    (problems : List problem_info) : Option (applet_state × List problem_info) :=
  let r := if env.auto_reporting then autoreport_own_problems env st problems else (st, problems)
  if r.2 ≠ [] then notify_problem_list env r.1 r.2 else some (r.1, [])

/-! ## The deferred queue and the connectivity signal -/

/-- The function `process_deferred_queue_timeout_fn` called with `queue`; it
returns `G_SOURCE_REMOVE`. -/
def process_deferred_queue_timeout_fn (env : applet_env) (st : applet_state)
    (queue : List problem_info) : Option (applet_state × List problem_info) :=
  show_problem_list_notification env { st with g_deferred_timeout := 0 } queue

/-- The GLib `g_source_remove`. -/
def g_source_remove (st : applet_state) (id : Nat) : applet_state :=
  { st with idle_sources := st.idle_sources.filter (fun p => p.1 ≠ id) }

/-- The function `connectivity_changed_cb`; `new_id` is the identifier
`g_idle_add` returns. -/
def connectivity_changed_cb (env : applet_env) (st : applet_state) (new_id : Nat) :
    applet_state :=
  if env.network_available && env.connectivity_full then
    let st1 := if st.g_deferred_timeout ≠ 0 then g_source_remove st st.g_deferred_timeout else st
    { st1 with
        g_deferred_timeout := new_id,
        idle_sources := st1.idle_sources ++
          [(new_id, if st1.g_deferred_crash_queue = [] then queue_ptr.null else queue_ptr.head)] }
  else st

/-- The list a data pointer of an idle source stands for when the source
runs.  Nothing but `push_to_deferred_queue` assigns `g_deferred_crash_queue`,
so a pointer to its first node is read as the content of that variable. -/
def queue_at (st : applet_state) : queue_ptr → List problem_info
  | .null => []
  | .head => st.g_deferred_crash_queue

/-- The main loop running the idle source `id`: the callback returns
`G_SOURCE_REMOVE`, so the source is destroyed afterwards.  Without such a
source nothing runs. -/
def dispatch_idle (env : applet_env) (st : applet_state) (id : Nat) : Option applet_state :=
  match st.idle_sources.find? (fun p => p.1 = id) with
  | none => some st
  | some p =>
    match process_deferred_queue_timeout_fn env st (queue_at st p.2) with
    | none => none
    | some r => some (g_source_remove r.1 id)

/-- The state of the applet when `main` enters the main loop. -/
def initial_state : applet_state :=
  { g_deferred_crash_queue := [], g_deferred_timeout := 0, g_last_notified_problem_id := none,
    idle_sources := [], shown := [], displayed := [], sessions := [] }

/-- The states the applet can get into: from the initial state by
connectivity signals (with a fresh non-zero source identifier), runs of a
pending idle source, handler callbacks and lists of problems to show. -/
inductive reachable (EXIT_STOP_EVENT_RUN : Nat) : applet_state → Prop where
  | init : reachable EXIT_STOP_EVENT_RUN initial_state
  | connectivity (env : applet_env) (st : applet_state) (new_id : Nat) :
      reachable EXIT_STOP_EVENT_RUN st → new_id ≠ 0 →
      (∀ p ∈ st.idle_sources, p.1 ≠ new_id) →
      reachable EXIT_STOP_EVENT_RUN (connectivity_changed_cb env st new_id)
  | idle (env : applet_env) (st st1 : applet_state) (id : Nat) :
      reachable EXIT_STOP_EVENT_RUN st → dispatch_idle env st id = some st1 →
      reachable EXIT_STOP_EVENT_RUN st1
  | output (env : applet_env) (st : applet_state) (state : event_processing_state)
      (chunks : List (List Nat)) (last : read_end) (wait : Option Nat) (r : output_cb_result) :
      reachable EXIT_STOP_EVENT_RUN st →
      handle_event_output_cb EXIT_STOP_EVENT_RUN env st state chunks last wait = some r →
      reachable EXIT_STOP_EVENT_RUN r.st
  | problems (env : applet_env) (st : applet_state) (l : List problem_info)
      (r : applet_state × List problem_info) :
      reachable EXIT_STOP_EVENT_RUN st → show_problem_list_notification env st l = some r →
      reachable EXIT_STOP_EVENT_RUN r.1

/-! ## The classification of a crash signal in `Crash` -/

/-- The libc `isspace` in the C locale. -/
def isspace (c : Nat) : Bool := c == 32 || (9 ≤ c && c ≤ 13)

/-- The libc `isdigit`. -/
def isdigit (c : Nat) : Bool := 48 ≤ c && c ≤ 57

/-- The digit loop of `strtoul` in base 10: the number read so far and the
text left over. -/
def strtoul_digits : List Nat → Nat → Nat × List Nat
  | [], acc => (acc, [])
  | c :: cs, acc =>
    if isdigit c then strtoul_digits cs (acc * 10 + (c - 48)) else (acc, c :: cs)

/-- What `strtoul (nptr, &end, 10)` hands back. -/
structure strtoul_result where
  value : Nat
  /-- The text at `*end`. -/
  endptr : CStr
  /-- Whether `errno` was set (to `ERANGE`). -/
  erange : Bool
deriving DecidableEq

/-- The conversion step of `strtoul`: `s1` is the text after white space and
sign.  Without a digit nothing is converted and `*end` is `nptr`; a number too
large gives `ULONG_MAX` and `ERANGE`; a minus sign negates in the unsigned
type. -/
def strtoul_convert (ULONG_MAX : Nat) (nptr : CStr) (negative : Bool) (s1 : List Nat) :
    strtoul_result :=
  if (s1.head?.map isdigit).getD false then
    if (strtoul_digits s1 0).1 > ULONG_MAX then
      { value := ULONG_MAX, endptr := (strtoul_digits s1 0).2, erange := true }
    else
      { value := if negative then (ULONG_MAX + 1 - (strtoul_digits s1 0).1) % (ULONG_MAX + 1)
                 else (strtoul_digits s1 0).1,
        endptr := (strtoul_digits s1 0).2, erange := false }
  else { value := 0, endptr := nptr, erange := false }

/-- The libc `strtoul (nptr, &end, 10)` for an `unsigned long` with largest
value `ULONG_MAX`: leading white space, an optional sign, then digits. -/
def strtoul (ULONG_MAX : Nat) (nptr : CStr) : strtoul_result :=
  match nptr.dropWhile isspace with
  | [] => strtoul_convert ULONG_MAX nptr false []
  | c :: rest =>
    if c = 45 then strtoul_convert ULONG_MAX nptr true rest
    else if c = 43 then strtoul_convert ULONG_MAX nptr false rest
    else strtoul_convert ULONG_MAX nptr false (c :: rest)

/-- Lines 1086-1097 of `Crash`: the local `foreign_problem`, from the `uid`
string of the signal and the result `uid` of `getuid ()`. -/
def Crash_foreign_problem (ULONG_MAX uid : Nat) (uid_str : CStr) : Bool :=
  if uid_str ≠ [] then
    let r := strtoul ULONG_MAX uid_str
    if r.erange || r.endptr ≠ [] || r.value ≠ uid then true else false
  else false

/-! ## The handler outcome and the decimal numerals as the specification words them -/

/-- The outcomes of a handler run in the specification. -/
inductive handler_outcome where
  | Suppressed
  | Succeeded
  | Failed
deriving DecidableEq

/-- The outcome the specification gives a wait status: a normal exit with the
stop-event code is suppressed, status zero is success, all else is failure. -/
def spec_outcome (stop_code status : Nat) : handler_outcome :=
  if status % 128 = 0 ∧ (status / 256) % 256 = stop_code then .Suppressed
  else if status = 0 then .Succeeded
  else .Failed

/-- The text made of the given lines, each followed by a newline. -/
def terminated (lines : List CStr) : List Nat := (lines.map (fun l => l ++ [10])).flatten

/-- The number a string of decimal digits denotes. -/
def decimal_value (ds : List Nat) : Nat := ds.foldl (fun acc c => acc * 10 + (c - 48)) 0

/-- A decimal number in the plain sense of the words: digits, at least one,
and nothing else. -/
def is_decimal_number (s : CStr) : Bool := !s.isEmpty && s.all isdigit

/-- Foreign as the claim words it: the uid string is not empty and it is not
a decimal number or its number differs from the uid. -/
def claimed_foreign (uid : Nat) (uid_str : CStr) : Bool :=
  !uid_str.isEmpty && (!is_decimal_number uid_str || decimal_value uid_str != uid)

/-- The strings `strtoul` reads in full, without a range error, as `n`: white
space, an optional sign and at least one digit, nothing else, the digits in
the range of `unsigned long`, a minus sign negating in that type. -/
def strtoul_reads_as (ULONG_MAX : Nat) (s : CStr) (n : Nat) : Prop :=
  ∃ ws sg ds : List Nat, s = ws ++ (sg ++ ds) ∧ (∀ c ∈ ws, isspace c = true) ∧
    (sg = [] ∨ sg = [43] ∨ sg = [45]) ∧ ds ≠ [] ∧ (∀ c ∈ ds, isdigit c = true) ∧
    decimal_value ds ≤ ULONG_MAX ∧
    n = if sg = [45] then (ULONG_MAX + 1 - decimal_value ds) % (ULONG_MAX + 1)
        else decimal_value ds

/-! ## Example surroundings -/

/-- Surroundings with automatic reporting enabled, full connectivity, no
known application, and directories that can be taken over. -/
def env_online : applet_env :=
  { auto_reporting := true, network_available := true, connectivity_full := true,
    find_app := fun _ => none, autoreport_event_name := [114],
    notify_notification_show := fun _ => true,
    chown_dir_over_dbus := fun _ => 0, open_directory_for_writing := fun d => d }

/-- The surroundings `env_online` without network. -/
def env_offline : applet_env :=
  { env_online with network_available := false, connectivity_full := false }

/-- The surroundings `env_online` where ownership cannot be taken. -/
def env_no_chown : applet_env :=
  { env_online with chown_dir_over_dbus := fun _ => 1 }

/-- A packaged problem of the current user, seen once, with a command line. -/
def example_problem : problem_info :=
  { dir := some [47, 100], foreign := false, count := 1, is_packaged := true,
    command_line := some [102, 111, 111], known := false, reported := false,
    was_announced := false, is_writable := true }

/-! ## `Crash` and `name_acquired_handler` -/

/-- The function `problem_info_new`: `g_new0` zeroes every field, then the
directory is stored. -/
def problem_info_new (dir : CStr) : problem_info :=
  { dir := some dir, foreign := false, count := 0, is_packaged := false,
    command_line := none, known := false, reported := false, was_announced := false,
    is_writable := false }

/-- The function `show_problem_notification`. -/
def show_problem_notification (env : applet_env) (st : applet_state) (pi : problem_info) :
    Option (applet_state × List problem_info) :=
  show_problem_list_notification env st [pi]

/-- The five strings of a `Crash` signal, as `g_variant_get` stores them; none
of them is `NULL`. -/
structure crash_signal where
  package_name : CStr
  dir : CStr
  uid_str : CStr
  uuid : CStr
  duphash : CStr
deriving DecidableEq

/-- What `Crash` loads from the dump directory of the signal with
`dd_load_text_ext`; `none` is the `NULL` it returns on failure. -/
structure dump_dir_texts where
  /-- The element `FILENAME_CMDLINE`. -/
  cmdline : Option CStr
  /-- The element `FILENAME_COUNT`. -/
  count : Option CStr
deriving DecidableEq

/-- The libc `atoi` on a number that fits an `int`: white space, an optional
sign, then digits. -/
def atoi (s : CStr) : Int :=
  match s.dropWhile isspace with
  | [] => 0
  | c :: rest =>
    if c = 45 then -((strtoul_digits rest 0).1 : Int)
    else if c = 43 then ((strtoul_digits rest 0).1 : Int)
    else ((strtoul_digits (c :: rest) 0).1 : Int)

/-- The conversion of an `int` to `guint`. -/
def to_guint (i : Int) : Nat := (i % 4294967296).toNat

/-- Lines 1103-1128 of `Crash`: the problem built for a signal that is not
dropped. -/
def Crash_problem (foreign_problem : Bool) (texts : dump_dir_texts) (ev : crash_signal) :
    problem_info :=
  let count := match texts.count with
    | some count_str => to_guint (atoi count_str)
    | none => 1
  let package_name : Option CStr := some ev.package_name
  { problem_info_new ev.dir with
      foreign := foreign_problem,
      count := count,
      is_packaged := package_name != none,
      command_line := texts.cmdline }

/-- The function `Crash`: `uid` is the result of `getuid ()` and `load` gives
what the dump directory of a signal holds. -/
def Crash (ULONG_MAX uid : Nat) (g_user_is_admin : Bool) (env : applet_env)
    (load : CStr → dump_dir_texts) (st : applet_state) (ev : crash_signal) :
    Option (applet_state × List problem_info) :=
  let foreign_problem := Crash_foreign_problem ULONG_MAX uid ev.uid_str
  -- Non-admins shouldn't see other people's crashes
  if foreign_problem && !g_user_is_admin then some (st, [])
  else show_problem_notification env st (Crash_problem foreign_problem (load ev.dir) ev)

/-- What `name_acquired_handler` asks of a directory that `dd_opendir`
opened. -/
structure dump_dir where
  dd_time : Nat
  /-- The result of `problem_dump_dir_is_complete`. -/
  is_complete : Bool
  /-- The result of `dd_exist (dd, FILENAME_REPORTED_TO)`. -/
  reported_to : Bool
deriving DecidableEq

/-- The loop `while (new_dirs)` of `name_acquired_handler` (lines 1162-1214):
the list `notify_list` it builds by prepending. -/
def name_acquired_scan (dd_opendir : CStr → Option dump_dir) (min_born_time : Nat) :
    List CStr → List problem_info → List problem_info
  | [], notify_list => notify_list
  | d :: rest, notify_list =>
    match dd_opendir d with
    | none => name_acquired_scan dd_opendir min_born_time rest notify_list
    | some dd =>
      if dd.dd_time < min_born_time then
        name_acquired_scan dd_opendir min_born_time rest notify_list
      else if !dd.is_complete then
        name_acquired_scan dd_opendir min_born_time rest notify_list
      else if !dd.reported_to then
        name_acquired_scan dd_opendir min_born_time rest
          ({ problem_info_new d with foreign := false } :: notify_list)
      else
        name_acquired_scan dd_opendir min_born_time rest notify_list

/-- The function `name_acquired_handler`: `dirlist` and `fp` are what
`new_dir_exists` finds, `min_born_time` is three days before now. -/
def name_acquired_handler (env : applet_env) (dd_opendir : CStr → Option dump_dir)
    (min_born_time : Nat) (st : applet_state) (dirlist : List CStr) (fp : Option (List CStr)) :
    Option (applet_state × List problem_info) :=
  let new_dirs := ((new_dir_exists dirlist fp (some [])).new_dirs).getD []
  let notify_list := name_acquired_scan dd_opendir min_born_time new_dirs []
  if notify_list ≠ [] then show_problem_list_notification env st notify_list
  else some (st, [])

/-! ## `compare_args` -/

/-- The function `_is_it_file_arg`; `none` is `NULL`. -/
def _is_it_file_arg (s : Option CStr) : Bool :=
  match s with
  | none => false
  | some str => if str.head? = some 45 then false else true

/-- The libc `strstr (s, needle) != NULL`. -/
def strstr_found (s needle : CStr) : Bool :=
  s.tails.any (fun t => needle.isPrefixOf t)

/-- The function `_is_it_url`; `none` is `NULL`. -/
def _is_it_url (s : Option CStr) : Bool :=
  match s with
  | none => false
  | some str => if strstr_found str [58, 47, 47] then true else false

/-- How one pass of the loop of `compare_args` ends. -/
inductive args_step where
  /-- A `return` with the given value. -/
  | ret (value : Bool)
  /-- The next pass, with the new `cargi` and `dargi`. -/
  | next (cargi dargi : Nat)
deriving DecidableEq

/-- The field code `%` followed by the letter `c`. -/
def field_code (c : Nat) : CStr := [37, c]

/-- The body of the loop of `compare_args` (lines 427-488) for
`dargi < g_strv_length (dcmdargs)`. -/
def compare_args_step (cmdargs dcmdargs : List CStr) (cargi dargi : Nat) : args_step :=
  let d := dcmdargs.getD dargi []
  if d = field_code 102 then
    -- "%f"
    if cargi ≥ cmdargs.length || _is_it_file_arg cmdargs[cargi]? then .ret false
    else .next (cargi + 1) (dargi + 1)
  else if d = field_code 70 then
    -- "%F"
    if cargi ≥ cmdargs.length || _is_it_file_arg cmdargs[cargi]? then .next cargi (dargi + 1)
    else .next (cargi + 1) dargi
  else if d = field_code 117 then
    -- "%u"
    if cargi ≥ cmdargs.length ||
        (!_is_it_url cmdargs[cargi]? && !_is_it_file_arg cmdargs[cargi]?) then .ret false
    else .next (cargi + 1) (dargi + 1)
  else if d = field_code 85 then
    -- "%U"
    if cargi ≥ cmdargs.length ||
        (!_is_it_url cmdargs[cargi]? && !_is_it_file_arg cmdargs[cargi]?) then
      .next cargi (dargi + 1)
    else .next (cargi + 1) dargi
  else if d = field_code 105 then
    -- "%i"
    .next (cargi + 2) (dargi + 1)
  else if d = field_code 99 || d = field_code 107 then
    -- "%c", "%k"
    .next (cargi + 1) (dargi + 1)
  else
    if cargi ≥ cmdargs.length || !(some d == cmdargs[cargi]?) then .ret false
    else .next (cargi + 1) (dargi + 1)

/-- The loop `while (dargi < g_strv_length(dcmdargs))` of `compare_args` with
the final comparison; `none` when the fuel runs out first. -/
def compare_args_loop (cmdargs dcmdargs : List CStr) : Nat → Nat → Nat → Option Bool
  | 0, _, _ => none
  | fuel + 1, cargi, dargi =>
    if dargi < dcmdargs.length then
      match compare_args_step cmdargs dcmdargs cargi dargi with
      | .ret value => some value
      | .next cargi1 dargi1 => compare_args_loop cmdargs dcmdargs fuel cargi1 dargi1
    else
      some (cargi == cmdargs.length && dargi == dcmdargs.length)

/-- The function `compare_args`: both indices start at 1.  The fuel is one
more than the two lengths together. -/
def compare_args (cmdargs dcmdargs : List CStr) : Option Bool :=
  compare_args_loop cmdargs dcmdargs (cmdargs.length + dcmdargs.length + 1) 1 1

/-- The distance of the loop of `compare_args` from its end. -/
def compare_args_measure (cmdargs dcmdargs : List CStr) (cargi dargi : Nat) : Nat :=
  (dcmdargs.length - dargi) + (cmdargs.length - cargi)

/-! ## `CApplet::AddEvent` and `CApplet::RemoveEvent` -/

/-- The member `m_mapEvents` of `CApplet`.  Its declaration is in
`CCApplet.h`; its uses show a map from `int` keys to strings. -/
abbrev events_map := Int → Option CStr

/-- The method `CApplet::AddEvent`: the map afterwards and the return value.
The value stored is the string literal of line 342, the letters
p P r o g n a m e. -/
def CApplet.AddEvent (m_mapEvents : events_map) (pUUID : Int) (_pProgname : CStr) :
    events_map × Int :=
  (fun k => if k = pUUID then some [112, 80, 114, 111, 103, 110, 97, 109, 101]
            else m_mapEvents k, 0)

/-- The method `CApplet::RemoveEvent`. -/
def CApplet.RemoveEvent (m_mapEvents : events_map) (pUUID : Int) : events_map × Int :=
  (fun k => if k = pUUID then none else m_mapEvents k, 0)

/-! ## Further example surroundings -/

/-- The surroundings `env_online` where no notification can be shown. -/
def env_show_fails : applet_env :=
  { env_online with notify_notification_show := fun _ => false }

/-- The surroundings `env_online` with automatic reporting switched off. -/
def env_manual : applet_env :=
  { env_online with auto_reporting := false }

/-- A dump directory that is fresh, complete and not yet reported. -/
def fresh_dump_dir : dump_dir :=
  { dd_time := 100, is_complete := true, reported_to := false }

/-! ## Facts about `strcmp` -/

theorem strcmp_self (a : CStr) : strcmp a a = 0 := by
  induction a with
  | nil => rfl
  | cons x xs ih => simp [strcmp, ih]

theorem strcmp_eq_zero {a b : CStr} : strcmp a b = 0 ↔ a = b := by
  constructor
  · intro h
    induction a generalizing b with
    | nil => cases b with
      | nil => rfl
      | cons y ys => simp [strcmp] at h
    | cons x xs ih => cases b with
      | nil => simp [strcmp] at h
      | cons y ys =>
        simp only [strcmp] at h
        split_ifs at h with hxy
        · rw [hxy, ih h]
        · omega
  · rintro rfl; exact strcmp_self a

theorem strcmp_swap (a b : CStr) : strcmp b a = - strcmp a b := by
  induction a generalizing b with
  | nil => cases b <;> simp [strcmp]
  | cons x xs ih => cases b with
    | nil => simp [strcmp]
    | cons y ys =>
      simp only [strcmp]
      by_cases hxy : x = y
      · subst hxy; simp [ih]
      · have hyx : ¬ y = x := fun h => hxy h.symm
        simp [hxy, hyx]

theorem strcmp_le_trans {a b c : CStr} (hab : strcmp a b ≤ 0) (hbc : strcmp b c ≤ 0) :
    strcmp a c ≤ 0 := by
  induction a generalizing b c with
  | nil => cases c <;> simp [strcmp]
  | cons x xs ih => cases b with
    | nil => simp [strcmp] at hab
    | cons y ys => cases c with
      | nil => simp [strcmp] at hbc
      | cons z zs =>
        simp only [strcmp] at hab hbc ⊢
        split_ifs at hab hbc ⊢ with h1 h2 h3 h3 h2 h3 h3
        all_goals first
          | exact ih hab hbc
          | omega

theorem strcmp_lt_of_lt_of_le {a b c : CStr} (hab : strcmp a b < 0) (hbc : strcmp b c ≤ 0) :
    strcmp a c < 0 := by
  have h := strcmp_le_trans (le_of_lt hab) hbc
  rcases lt_or_eq_of_le h with h | h
  · exact h
  · rw [strcmp_eq_zero] at h
    subst h
    have := strcmp_swap a b
    omega

theorem strcmp_le_total (a b : CStr) : strcmp_le a b ∨ strcmp_le b a := by
  unfold strcmp_le
  have := strcmp_swap a b
  omega

theorem strcmp_le_antisymm (a b : CStr) (hab : strcmp_le a b) (hba : strcmp_le b a) :
    a = b := by
  unfold strcmp_le at hab hba
  have := strcmp_swap a b
  exact strcmp_eq_zero.mp (by omega)

theorem g_list_sort_sorted (l : List CStr) : (g_list_sort l).Sorted strcmp_le :=
  haveI : IsTotal CStr strcmp_le := ⟨strcmp_le_total⟩
  haveI : IsTrans CStr strcmp_le := ⟨fun _ _ _ hab hbc => strcmp_le_trans hab hbc⟩
  List.sorted_insertionSort strcmp_le l

theorem g_list_sort_perm (l : List CStr) : (g_list_sort l).Perm l :=
  List.perm_insertionSort strcmp_le l

theorem g_list_sort_eq_of_perm {l l' : List CStr} (h : l.Perm l') :
    g_list_sort l = g_list_sort l' :=
  haveI : IsAntisymm CStr strcmp_le := ⟨strcmp_le_antisymm⟩
  List.eq_of_perm_of_sorted (((g_list_sort_perm l).trans h).trans (g_list_sort_perm l').symm)
    (g_list_sort_sorted l) (g_list_sort_sorted l')

theorem g_list_sort_idem (l : List CStr) : g_list_sort (g_list_sort l) = g_list_sort l :=
  List.Sorted.insertionSort_eq (g_list_sort_sorted l)

/-! ## The two-pointer loop -/

theorem nat_lor_eq_zero {m n : Nat} (h : m ||| n = 0) : m = 0 ∧ n = 0 := by
  have key : ∀ i, (m ||| n).testBit i = false := by intro i; rw [h]; simp
  constructor <;> apply Nat.eq_of_testBit_eq <;> intro i <;>
    have := key i <;> simp [Nat.testBit_or] at this ⊢ <;> tauto

theorem int_lor_eq_zero (a b : Int) : Int.lor a b = 0 ↔ a = 0 ∧ b = 0 := by
  constructor
  · intro h
    cases a <;> cases b <;> simp [Int.lor] at h
    rename_i m n
    have h1 : (m ||| n) = 0 := by exact_mod_cast h
    have := nat_lor_eq_zero h1
    simp [this]
  · rintro ⟨rfl, rfl⟩; rfl

theorem merge_loop_nil_left (fuel : Nat) (l2 : List CStr) (d : Int) (n : Option (List CStr)) :
    merge_loop fuel ⟨[], l2, d, n⟩ = ⟨[], l2, d, n⟩ := by
  cases fuel <;> rfl

theorem merge_loop_nil_right (fuel : Nat) (l1 : List CStr) (d : Int) (n : Option (List CStr)) :
    merge_loop fuel ⟨l1, [], d, n⟩ = ⟨l1, [], d, n⟩ := by
  cases fuel <;> cases l1 <;> rfl

theorem merge_loop_cons (fuel : Nat) (a b : CStr) (r1 r2 : List CStr) (d : Int)
    (n : Option (List CStr)) :
    merge_loop (fuel + 1) ⟨a :: r1, b :: r2, d, n⟩ =
      if strcmp a b < 0 then
        merge_loop fuel ⟨r1, b :: r2, Int.lor d (strcmp a b), n.map (fun m => a :: m)⟩
      else
        merge_loop fuel
          ⟨if strcmp a b = 0 then r1 else a :: r1, r2, Int.lor d (strcmp a b), n⟩ := rfl

/-- The identifiers the loop has prepended, oldest first, followed by what is
left of `l1`, form a sublist of `l1`; for a duplicate-free `l1` they are the
elements of `l1` missing from `l2`. -/
theorem merge_loop_emitted (fuel : Nat) (l1 l2 : List CStr) (d : Int) (n : Option (List CStr)) :
    ∃ e : List CStr,
      (merge_loop fuel ⟨l1, l2, d, n⟩).new_dirs = n.map (fun m => e.reverse ++ m) ∧
      (e ++ (merge_loop fuel ⟨l1, l2, d, n⟩).l1).Sublist l1 ∧
      (l1.Pairwise (fun a b => strcmp a b < 0) → l2.Pairwise strcmp_le →
        l1.length + l2.length ≤ fuel →
        ∀ x, x ∈ e ++ (merge_loop fuel ⟨l1, l2, d, n⟩).l1 ↔ x ∈ l1 ∧ x ∉ l2) := by
  induction fuel generalizing l1 l2 d n with
  | zero =>
    refine ⟨[], by cases n <;> simp [merge_loop], by simp [merge_loop], ?_⟩
    intro _ _ hlen x
    have h1 : l1 = [] := List.length_eq_zero.mp (by omega)
    subst h1
    simp [merge_loop]
  | succ fuel ih =>
    cases l1 with
    | nil =>
      rw [merge_loop_nil_left]
      exact ⟨[], by cases n <;> simp, by simp, by simp⟩
    | cons a r1 =>
      cases l2 with
      | nil =>
        rw [merge_loop_nil_right]
        exact ⟨[], by cases n <;> simp, by simp, by simp⟩
      | cons b r2 =>
        rw [merge_loop_cons]
        by_cases hlt : strcmp a b < 0
        · rw [if_pos hlt]
          obtain ⟨e, he1, he2, he3⟩ :=
            ih r1 (b :: r2) (Int.lor d (strcmp a b)) (n.map (fun m => a :: m))
          refine ⟨a :: e, ?_, ?_, ?_⟩
          · rw [he1]; cases n <;> simp
          · simpa using he2.cons₂ a
          · intro hs1 hs2 hlen x
            rw [List.pairwise_cons] at hs1
            have h3 := he3 hs1.2 hs2 (by simp at hlen ⊢; omega) x
            have hnot : a ∉ b :: r2 := by
              intro hmem
              rw [List.pairwise_cons] at hs2
              rcases List.mem_cons.mp hmem with h | h
              · subst h; rw [strcmp_self] at hlt; omega
              · have hba := hs2.1 a h
                have := strcmp_swap a b
                unfold strcmp_le at hba
                omega
            simp only [List.cons_append, List.mem_cons]
            rw [h3]
            constructor
            · rintro (h | h)
              · subst h; exact ⟨Or.inl rfl, by simpa using hnot⟩
              · exact ⟨Or.inr h.1, by simpa using h.2⟩
            · rintro ⟨h | h, h'⟩
              · exact Or.inl h
              · exact Or.inr ⟨h, by simpa using h'⟩
        · rw [if_neg hlt]
          by_cases heq : strcmp a b = 0
          · rw [if_pos heq]
            have hab : a = b := strcmp_eq_zero.mp heq
            subst hab
            obtain ⟨e, he1, he2, he3⟩ := ih r1 r2 (Int.lor d (strcmp a a)) n
            refine ⟨e, he1, he2.cons a, ?_⟩
            intro hs1 hs2 hlen x
            rw [List.pairwise_cons] at hs1 hs2
            have h3 := he3 hs1.2 hs2.2 (by simp at hlen ⊢; omega) x
            rw [h3]
            constructor
            · rintro ⟨h, h'⟩
              refine ⟨List.mem_cons_of_mem _ h, ?_⟩
              intro hmem
              rcases List.mem_cons.mp hmem with hx | hx
              · subst hx
                have := hs1.1 x h
                rw [strcmp_self] at this; omega
              · exact h' hx
            · rintro ⟨h, h'⟩
              rcases List.mem_cons.mp h with hx | hx
              · subst hx; exact absurd (List.mem_cons_self _ _) h'
              · exact ⟨hx, fun hmem => h' (List.mem_cons_of_mem _ hmem)⟩
          · rw [if_neg heq]
            obtain ⟨e, he1, he2, he3⟩ := ih (a :: r1) r2 (Int.lor d (strcmp a b)) n
            refine ⟨e, he1, he2, ?_⟩
            intro hs1 hs2 hlen x
            have hs2' := hs2
            rw [List.pairwise_cons] at hs2'
            have h3 := he3 hs1 hs2'.2 (by simp at hlen ⊢; omega) x
            rw [h3]
            have hgt : 0 < strcmp a b := by omega
            constructor
            · rintro ⟨h, h'⟩
              refine ⟨h, ?_⟩
              intro hmem
              rcases List.mem_cons.mp hmem with hx | hx
              · subst hx
                rw [List.pairwise_cons] at hs1
                rcases List.mem_cons.mp h with hxa | hxa
                · subst hxa; rw [strcmp_self] at hgt; omega
                · have h1 := hs1.1 x hxa
                  have h2 := strcmp_swap a x
                  omega
              · exact h' hx
            · rintro ⟨h, h'⟩
              exact ⟨h, fun hmem => h' (List.mem_cons_of_mem _ hmem)⟩


/-- With enough fuel the loop ends with `different == 0` and both cursors at
the end exactly when it started with `different == 0` on two equal lists. -/
theorem merge_loop_same (fuel : Nat) (l1 l2 : List CStr) (d : Int) (n : Option (List CStr))
    (hlen : l1.length + l2.length ≤ fuel) :
    ((merge_loop fuel ⟨l1, l2, d, n⟩).different = 0 ∧
      (merge_loop fuel ⟨l1, l2, d, n⟩).l1 = [] ∧
      (merge_loop fuel ⟨l1, l2, d, n⟩).l2 = []) ↔ (d = 0 ∧ l1 = l2) := by
  induction fuel generalizing l1 l2 d n with
  | zero =>
    have h1 : l1 = [] := List.length_eq_zero.mp (by omega)
    have h2 : l2 = [] := List.length_eq_zero.mp (by omega)
    subst h1 h2
    simp [merge_loop]
  | succ fuel ih =>
    cases l1 with
    | nil =>
      rw [merge_loop_nil_left]
      cases l2 <;> simp
    | cons a r1 =>
      cases l2 with
      | nil => rw [merge_loop_nil_right]; simp
      | cons b r2 =>
        rw [merge_loop_cons]
        simp only [List.length_cons] at hlen
        by_cases hlt : strcmp a b < 0
        · rw [if_pos hlt, ih _ _ _ _ (by simp; omega), int_lor_eq_zero]
          have hne : a ≠ b := fun h => by subst h; rw [strcmp_self] at hlt; omega
          constructor
          · rintro ⟨⟨_, h⟩, _⟩; omega
          · rintro ⟨_, h⟩; exact absurd (List.cons.inj h).1 hne
        · rw [if_neg hlt]
          by_cases heq : strcmp a b = 0
          · rw [if_pos heq, ih _ _ _ _ (by omega), int_lor_eq_zero]
            have hab : a = b := strcmp_eq_zero.mp heq
            subst hab
            simp [heq]
          · rw [if_neg heq, ih _ _ _ _ (by simp; omega), int_lor_eq_zero]
            have hne : a ≠ b := fun h => heq (strcmp_eq_zero.mpr h)
            constructor
            · rintro ⟨⟨_, h⟩, _⟩; exact absurd h heq
            · rintro ⟨_, h⟩; exact absurd (List.cons.inj h).1 hne

/-- With the fuel `new_dir_exists` supplies the loop runs to its exit: one of
the two cursors has reached the end. -/
theorem merge_loop_exits (fuel : Nat) (l1 l2 : List CStr) (d : Int) (n : Option (List CStr))
    (hlen : l1.length + l2.length ≤ fuel) :
    (merge_loop fuel ⟨l1, l2, d, n⟩).l1 = [] ∨ (merge_loop fuel ⟨l1, l2, d, n⟩).l2 = [] := by
  induction fuel generalizing l1 l2 d n with
  | zero =>
    have h1 : l1 = [] := List.length_eq_zero.mp (by omega)
    subst h1
    exact Or.inl rfl
  | succ fuel ih =>
    cases l1 with
    | nil => rw [merge_loop_nil_left]; exact Or.inl rfl
    | cons a r1 =>
      cases l2 with
      | nil => rw [merge_loop_nil_right]; exact Or.inr rfl
      | cons b r2 =>
        rw [merge_loop_cons]
        simp only [List.length_cons] at hlen
        split_ifs with h1 h2
        · exact ih _ _ _ _ (by simp; omega)
        · exact ih _ _ _ _ (by omega)
        · exact ih _ _ _ _ (by simp; omega)

/-- On two equal lists the loop prepends nothing. -/
theorem merge_loop_self (fuel : Nat) (l : List CStr) (n : Option (List CStr))
    (hlen : l.length + l.length ≤ fuel) :
    merge_loop fuel ⟨l, l, 0, n⟩ = ⟨[], [], 0, n⟩ := by
  induction l generalizing fuel with
  | nil => rw [merge_loop_nil_left]
  | cons a r ih =>
    cases fuel with
    | zero => simp at hlen
    | succ fuel =>
      simp only [List.length_cons] at hlen
      rw [merge_loop_cons, strcmp_self]
      simp only [lt_self_iff_false, if_false, if_true]
      have hd : Int.lor 0 0 = 0 := rfl
      rw [hd]
      exact ih fuel (by omega)

theorem prepend_rest_eq (l n : List CStr) : prepend_rest l n = l.reverse ++ n := by
  induction l generalizing n with
  | nil => rfl
  | cons a r ih => simp [prepend_rest, ih]

theorem g_list_sort_strict {l : List CStr} (h : l.Nodup) :
    (g_list_sort l).Pairwise (fun a b => strcmp a b < 0) := by
  have hs : (g_list_sort l).Pairwise strcmp_le := g_list_sort_sorted l
  have hn : (g_list_sort l).Pairwise (fun a b => a ≠ b) := (g_list_sort_perm l).nodup_iff.mpr h
  refine (hs.and hn).imp ?_
  rintro a b ⟨hle, hne⟩
  unfold strcmp_le at hle
  rcases lt_or_eq_of_le hle with h | h
  · exact h
  · exact absurd (strcmp_eq_zero.mp h) hne

/-- Lines 300-321 of `new_dir_exists`, from the state the loop ended in. -/
theorem new_dir_exists_tail (s : merge_state) (text : List Nat) :
    (if Int.lor s.different (if s.l1 ≠ [] then 1 else 0) ≠ 0 ∨ s.l2 ≠ [] then
        ({ new_dirs :=
            if Int.lor s.different (if s.l1 ≠ [] then 1 else 0) ≠ 0 then
              s.new_dirs.map (fun n => prepend_rest s.l1 n)
            else s.new_dirs,
           written := some text, rewritten := true } : dirlist_outcome)
      else
        { new_dirs :=
            if Int.lor s.different (if s.l1 ≠ [] then 1 else 0) ≠ 0 then
              s.new_dirs.map (fun n => prepend_rest s.l1 n)
            else s.new_dirs,
          written := none, rewritten := false }) =
      { new_dirs := s.new_dirs.map (fun m => s.l1.reverse ++ m),
        written := if s.different = 0 ∧ s.l1 = [] ∧ s.l2 = [] then none else some text,
        rewritten := !decide (s.different = 0 ∧ s.l1 = [] ∧ s.l2 = []) } := by
  rcases s with ⟨l1, l2, d, nd⟩
  simp only
  by_cases h1 : l1 = []
  · subst h1
    by_cases hd : d = 0
    · subst hd
      by_cases h2 : l2 = []
      · subst h2; cases nd <;> simp [int_lor_eq_zero]
      · cases nd <;> simp [int_lor_eq_zero, h2]
    · cases nd <;> simp [int_lor_eq_zero, hd, prepend_rest_eq]
  · cases nd <;> simp [int_lor_eq_zero, h1, prepend_rest_eq]

/-- The three results of a call that opened the file, in terms of the state
the loop ended in. -/
theorem new_dir_exists_some (dirlist old : List CStr) (n : Option (List CStr)) :
    new_dir_exists dirlist (some old) n =
      { new_dirs := (final_state dirlist old n).new_dirs.map
          (fun m => (final_state dirlist old n).l1.reverse ++ m),
        written := if (final_state dirlist old n).different = 0 ∧
            (final_state dirlist old n).l1 = [] ∧ (final_state dirlist old n).l2 = []
          then none else some (write_dirlist (g_list_sort dirlist)),
        rewritten := !decide ((final_state dirlist old n).different = 0 ∧
            (final_state dirlist old n).l1 = [] ∧ (final_state dirlist old n).l2 = []) } :=
  new_dir_exists_tail (final_state dirlist old n) (write_dirlist (g_list_sort dirlist))

/-- The list behind `new_dirs` after a call that opened the file: the reported
identifiers, newest first, in front of what the list held before. -/
theorem new_dir_exists_new_dirs (dirlist old n : List CStr) :
    ∃ r : List CStr,
      (new_dir_exists dirlist (some old) (some n)).new_dirs = some (r.reverse ++ n) ∧
      r.Sublist (g_list_sort dirlist) ∧
      (dirlist.Nodup → ∀ x, x ∈ r ↔ x ∈ dirlist ∧ x ∉ old) := by
  obtain ⟨e, he1, he2, he3⟩ :=
    merge_loop_emitted ((g_list_sort dirlist).length + (g_list_sort old).length)
      (g_list_sort dirlist) (g_list_sort old) 0 (some n)
  refine ⟨e ++ (final_state dirlist old (some n)).l1, ?_, he2, ?_⟩
  · rw [new_dir_exists_some]
    simp only [final_state, he1, Option.map_some', List.reverse_append, List.append_assoc]
  · intro hnd x
    unfold final_state
    rw [he3 (g_list_sort_strict hnd) (g_list_sort_sorted old) le_rfl x,
      (g_list_sort_perm dirlist).mem_iff, (g_list_sort_perm old).mem_iff]

/-- The persistence step of a call that opened the file. -/
theorem new_dir_exists_file (dirlist old : List CStr) (n : Option (List CStr)) :
    ((new_dir_exists dirlist (some old) n).rewritten = true ↔
        g_list_sort dirlist ≠ g_list_sort old) ∧
      (new_dir_exists dirlist (some old) n).written =
        (if g_list_sort dirlist = g_list_sort old then none
          else some (write_dirlist (g_list_sort dirlist))) := by
  have hsame := merge_loop_same ((g_list_sort dirlist).length + (g_list_sort old).length)
    (g_list_sort dirlist) (g_list_sort old) 0 n le_rfl
  simp only [true_and] at hsame
  rw [new_dir_exists_some]
  unfold final_state
  simp only [hsame]
  by_cases h : g_list_sort dirlist = g_list_sort old <;> simp [h]

/-! ## The seen-list diff: claims C1 to C7 -/

/-- C1: for a duplicate-free enumerated list and any persisted list, a call of
`new_dir_exists` that opened the file puts in front of the caller's list
exactly the elements of the current list that do not occur in the persisted
one. -/
theorem C1_new_dirs_is_set_difference (dirlist old n : List CStr) (hnodup : dirlist.Nodup) :
    ∃ l : List CStr,
      (new_dir_exists dirlist (some old) (some n)).new_dirs = some (l ++ n) ∧
      ∀ x, x ∈ l ↔ x ∈ dirlist ∧ x ∉ old := by
  obtain ⟨r, hr1, _, hr3⟩ := new_dir_exists_new_dirs dirlist old n
  exact ⟨r.reverse, hr1, fun x => by rw [List.mem_reverse]; exact hr3 hnodup x⟩

theorem C1_new_dirs_is_set_difference_witness :
    ([[47, 97], [47, 99], [47, 98]] : List CStr).Nodup ∧
    ∃ l : List CStr,
      (new_dir_exists [[47, 97], [47, 99], [47, 98]] (some [[47, 98], [47, 122]])
        (some [])).new_dirs = some (l ++ []) ∧
      ∀ x, x ∈ l ↔ x ∈ ([[47, 97], [47, 99], [47, 98]] : List CStr) ∧
        x ∉ ([[47, 98], [47, 122]] : List CStr) :=
  ⟨by decide, C1_new_dirs_is_set_difference _ _ _ (by decide)⟩

/-- C2, as stated, fails: with the current list of the two names a and b and an
empty store, the list handed back holds b before a, which is not ascending. -/
theorem C2_ascending_counterexample :
    (new_dir_exists [[97], [98]] (some []) (some [])).new_dirs = some [[98], [97]] ∧
    ¬ List.Sorted strcmp_le [[98], [97]] := by
  decide

/-- C2, amended: the list a call of `new_dir_exists` stores through `new_dirs`,
started from the empty list, is in descending lexicographic order (every entry
is `strcmp`-above or equal to each later one). -/
theorem C2_new_dirs_descending (dirlist : List CStr) (fp : Option (List CStr)) :
    ∃ l : List CStr,
      (new_dir_exists dirlist fp (some [])).new_dirs = some l ∧
      l.Pairwise (fun a b => strcmp b a ≤ 0) := by
  cases fp with
  | none => exact ⟨[], rfl, List.Pairwise.nil⟩
  | some old =>
    obtain ⟨r, hr1, hr2, _⟩ := new_dir_exists_new_dirs dirlist old []
    refine ⟨r.reverse, by simpa using hr1, ?_⟩
    rw [List.pairwise_reverse]
    exact List.Pairwise.sublist hr2 (g_list_sort_sorted dirlist)

/-- C3, as stated, fails: when the file cannot be opened, a current entry that
was never persisted is not handed to the caller. -/
theorem C3_unopened_counterexample :
    new_dir_exists [[47, 97]] none (some []) = ⟨some [], none, false⟩ := by
  decide

/-- C3, amended: when the seen-list file cannot be opened, `new_dir_exists`
reports nothing (the caller's list is left as it was) and skips the
persistence step. -/
theorem C3_unopened_reports_nothing (dirlist : List CStr) (new_dirs : Option (List CStr)) :
    new_dir_exists dirlist none new_dirs = ⟨new_dirs, none, false⟩ := rfl

/-- Reading goes through one line of a text up to its newline. -/
theorem read_lines_from_line (line l : CStr) (rest : List Nat) (hl : 10 ∉ l) :
    read_lines_from line (l ++ 10 :: rest) = (line ++ l) :: read_lines_from [] rest := by
  induction l generalizing line with
  | nil => simp [read_lines_from]
  | cons c cs ih =>
    have hc : c ≠ 10 := fun h => hl (by simp [h])
    have hcs : 10 ∉ cs := fun h => hl (List.mem_cons_of_mem _ h)
    have h := ih (line ++ [c]) hcs
    rw [List.cons_append, read_lines_from, if_neg hc, h]
    simp

/-- Entries without a newline are read back as they were written. -/
theorem read_lines_write_dirlist (ls : List CStr) (h : ∀ l ∈ ls, 10 ∉ l) :
    read_lines (write_dirlist ls) = ls := by
  induction ls with
  | nil => rfl
  | cons a r ih =>
    have ha := h a (List.mem_cons_self _ _)
    have hr := ih (fun l hl => h l (List.mem_cons_of_mem _ hl))
    unfold read_lines at hr ⊢
    simp only [write_dirlist, List.append_assoc, List.singleton_append]
    rw [read_lines_from_line [] a _ ha, hr]
    simp

theorem g_list_sort_no_newline {dirlist : List CStr} (h : ∀ d ∈ dirlist, 10 ∉ d) :
    ∀ d ∈ g_list_sort dirlist, 10 ∉ d :=
  fun d hd => h d ((g_list_sort_perm dirlist).mem_iff.mp hd)

/-- The store after a call that opened it, when every stream call succeeds. -/
theorem store_after_done (dirlist : List CStr) (store : List Nat) (n : Option (List CStr)) :
    store_after store (new_dir_exists dirlist (some (read_lines store)) n) write_io.done =
      (if g_list_sort dirlist = g_list_sort (read_lines store) then store
        else write_dirlist (g_list_sort dirlist)) := by
  obtain ⟨_, h2⟩ := new_dir_exists_file dirlist (read_lines store) n
  unfold store_after
  rw [h2]
  split_ifs <;> rfl

/-- C5, as stated, fails: the store is opened and rewritten, yet for a
directory whose name holds a newline the lines persisted are two others and
the current entry is not among them; and when a stream call fails on a store
that was empty, the current entry is not persisted at all. -/
theorem C5_store_holds_current_counterexample :
    read_lines (store_after []
      (new_dir_exists [[120, 10, 121]] (some (read_lines [])) (some [])) write_io.done) =
        [[120], [121]] ∧
    [120, 10, 121] ∉ read_lines (store_after []
      (new_dir_exists [[120, 10, 121]] (some (read_lines [])) (some [])) write_io.done) ∧
    read_lines (store_after []
      (new_dir_exists [[47, 97]] (some (read_lines [])) (some [])) (write_io.failed [])) =
        [] := by
  decide

/-- C5, amended: after a call of `new_dir_exists` that opened the store and
whose stream calls succeeded, with no current entry holding a newline, the
lines of the store are a rearrangement of the current list, so they hold
exactly its identifiers, whether or not the store was rewritten. -/
theorem C5_store_holds_current (dirlist : List CStr) (store : List Nat)
    (n : Option (List CStr)) (hnl : ∀ d ∈ dirlist, 10 ∉ d) :
    (read_lines (store_after store (new_dir_exists dirlist (some (read_lines store)) n)
        write_io.done)).Perm dirlist ∧
      ∀ x, x ∈ read_lines (store_after store
          (new_dir_exists dirlist (some (read_lines store)) n) write_io.done) ↔
        x ∈ dirlist := by
  have hperm : (read_lines (store_after store
      (new_dir_exists dirlist (some (read_lines store)) n) write_io.done)).Perm dirlist := by
    rw [store_after_done]
    split_ifs with h
    · exact ((g_list_sort_perm (read_lines store)).symm.trans (h ▸ List.Perm.refl _)).trans
        (g_list_sort_perm dirlist)
    · rw [read_lines_write_dirlist _ (g_list_sort_no_newline hnl)]
      exact g_list_sort_perm dirlist
  exact ⟨hperm, fun x => hperm.mem_iff⟩

theorem C5_store_holds_current_witness :
    (∀ d ∈ ([[47, 98], [47, 97]] : List CStr), 10 ∉ d) ∧
    ((read_lines (store_after [47, 122, 10]
        (new_dir_exists [[47, 98], [47, 97]] (some (read_lines [47, 122, 10])) none)
        write_io.done)).Perm [[47, 98], [47, 97]] ∧
      ∀ x, x ∈ read_lines (store_after [47, 122, 10]
          (new_dir_exists [[47, 98], [47, 97]] (some (read_lines [47, 122, 10])) none)
          write_io.done) ↔
        x ∈ ([[47, 98], [47, 97]] : List CStr)) :=
  ⟨by decide, C5_store_holds_current _ _ _ (by decide)⟩

/-- C6, as stated, fails: for a directory whose name holds a newline, a second
run on the store the first run wrote reports the directory as new again and
rewrites the store. -/
theorem C6_second_run_counterexample :
    new_dir_exists [[120, 10, 121]]
      (some (read_lines (store_after []
        (new_dir_exists [[120, 10, 121]] (some (read_lines [])) (some [])) write_io.done)))
      (some []) =
      ⟨some [[120, 10, 121]], some [120, 10, 121, 10], true⟩ := by
  decide

/-- C6, amended: when no current entry holds a newline and the stream calls of
the first run succeed, running `new_dir_exists` a second time on the same
current list, on the store the first run left, reports nothing and does not
rewrite the store. -/
theorem C6_second_run_is_silent (dirlist : List CStr) (store : List Nat)
    (n n2 : Option (List CStr)) (hnl : ∀ d ∈ dirlist, 10 ∉ d) :
    new_dir_exists dirlist
      (some (read_lines (store_after store
        (new_dir_exists dirlist (some (read_lines store)) n) write_io.done))) n2 =
      ⟨n2, none, false⟩ := by
  have hsort : g_list_sort (read_lines (store_after store
      (new_dir_exists dirlist (some (read_lines store)) n) write_io.done)) =
      g_list_sort dirlist := by
    rw [store_after_done]
    split_ifs with h
    · exact h.symm
    · rw [read_lines_write_dirlist _ (g_list_sort_no_newline hnl)]
      exact g_list_sort_idem dirlist
  rw [new_dir_exists_some]
  have hfin : final_state dirlist (read_lines (store_after store
      (new_dir_exists dirlist (some (read_lines store)) n) write_io.done)) n2 =
      ⟨[], [], 0, n2⟩ := by
    unfold final_state
    rw [hsort]
    exact merge_loop_self _ _ _ le_rfl
  rw [hfin]
  cases n2 <;> simp

theorem C6_second_run_is_silent_witness :
    (∀ d ∈ ([[47, 98], [47, 97]] : List CStr), 10 ∉ d) ∧
    new_dir_exists [[47, 98], [47, 97]]
      (some (read_lines (store_after [47, 122, 10]
        (new_dir_exists [[47, 98], [47, 97]] (some (read_lines [47, 122, 10])) (some []))
        write_io.done))) (some []) =
      ⟨some [], none, false⟩ :=
  ⟨by decide, C6_second_run_is_silent _ _ _ _ (by decide)⟩

/-- C7: two current lists that are rearrangements of each other give the same
outcome of `new_dir_exists`: the same reported list, the same text written
and the same rewrite decision. -/
theorem C7_enumeration_order_irrelevant (d1 d2 : List CStr) (fp n : Option (List CStr))
    (hperm : d1.Perm d2) :
    new_dir_exists d1 fp n = new_dir_exists d2 fp n := by
  cases fp with
  | none => rfl
  | some old =>
    simp only [new_dir_exists, g_list_sort_eq_of_perm hperm]

theorem C7_enumeration_order_irrelevant_witness :
    ([[47, 98], [47, 97]] : List CStr).Perm [[47, 97], [47, 98]] ∧
    new_dir_exists [[47, 98], [47, 97]] (some [[47, 98]]) (some []) =
      new_dir_exists [[47, 97], [47, 98]] (some [[47, 98]]) (some []) :=
  ⟨List.Perm.swap _ _ _, C7_enumeration_order_irrelevant _ _ _ _ (List.Perm.swap _ _ _)⟩

/-! ## The notification decision: claims C8 to C10 -/

/-- C8: for every combination of is_app, auto-reporting, packaged, network and
already-reported, the decision of `notify_problem_list` is defined and its
message variant and report-button flag are those of the documented decision
table (no message meaning suppress); a contact-the-developer message names
the application, or for a non-app the executable of the command line. -/
theorem C8_decision_matches_table (auto_reporting network_available : Bool)
    (app : Option GAppInfo) (pi : problem_info) (cmdline : CStr)
    (hcmd : pi.command_line = some cmdline) :
    ∃ d : directive,
      notify_problem_list_decide auto_reporting network_available app pi = some d ∧
      d.notify_body.map (fun b => (b.format.variant, d.report_button)) =
        spec_decision_table app.isSome auto_reporting pi.is_packaged network_available
          (decide (pi.count > 1)) ∧
      (d.notify_body = none → d.report_button = false) ∧
      (∀ b, d.notify_body = some b → b.format = notify_format.crashed_contact_developer →
        b.arg = match app with
          | some a => some a.display_name
          | none => (g_strsplit cmdline).head?) := by
  rcases pi with ⟨dir, foreign, count, is_packaged, command_line, known, reported,
    was_announced, is_writable⟩
  simp only at hcmd
  subst hcmd
  by_cases hc : count > 1 <;> cases app <;> cases auto_reporting <;> cases is_packaged <;>
    cases network_available <;>
    simp [notify_problem_list_decide, spec_decision_table, get_argv0, notify_format.variant, hc]

theorem C8_decision_matches_table_witness :
    (⟨some [47, 100], false, 1, false, some [102, 111, 111, 32, 45, 120], false, false, false,
        false⟩ : problem_info).command_line = some [102, 111, 111, 32, 45, 120] ∧
    ∃ d : directive,
      notify_problem_list_decide true false none
        ⟨some [47, 100], false, 1, false, some [102, 111, 111, 32, 45, 120], false, false, false,
          false⟩ = some d ∧
      d.notify_body.map (fun b => (b.format.variant, d.report_button)) =
        spec_decision_table (none : Option GAppInfo).isSome true
          (⟨some [47, 100], false, 1, false, some [102, 111, 111, 32, 45, 120], false, false,
            false, false⟩ : problem_info).is_packaged false
          (decide ((⟨some [47, 100], false, 1, false, some [102, 111, 111, 32, 45, 120], false,
            false, false, false⟩ : problem_info).count > 1)) ∧
      (d.notify_body = none → d.report_button = false) ∧
      (∀ b, d.notify_body = some b → b.format = notify_format.crashed_contact_developer →
        b.arg = match (none : Option GAppInfo) with
          | some a => some a.display_name
          | none => (g_strsplit [102, 111, 111, 32, 45, 120]).head?) :=
  ⟨rfl, C8_decision_matches_table true false none _ [102, 111, 111, 32, 45, 120] rfl⟩

/-- C9: a problem that was already reported (count above one) and whose command
line resolved to no application gets no message and no notification, whatever
the auto-reporting, network, packaged and foreign flags are; the problem is
left as it was. -/
theorem C9_known_non_app_suppressed (auto_reporting network_available : Bool)
    (pi : problem_info) (hcount : pi.count > 1) :
    notify_problem_list_decide auto_reporting network_available none pi =
        some ⟨none, false, false⟩ ∧
      notify_problem_list_iter auto_reporting network_available none pi = some (pi, none) := by
  have h : notify_problem_list_decide auto_reporting network_available none pi =
      some ⟨none, false, false⟩ := by
    simp [notify_problem_list_decide, hcount]
  exact ⟨h, by simp [notify_problem_list_iter, h, notify_problem_list_show]⟩

theorem C9_known_non_app_suppressed_witness :
    (⟨some [47, 100], true, 2, true, some [102], false, false, false, false⟩ :
        problem_info).count > 1 ∧
    notify_problem_list_decide true true none
        ⟨some [47, 100], true, 2, true, some [102], false, false, false, false⟩ =
        some ⟨none, false, false⟩ ∧
      notify_problem_list_iter true true none
        ⟨some [47, 100], true, 2, true, some [102], false, false, false, false⟩ =
        some (⟨some [47, 100], true, 2, true, some [102], false, false, false, false⟩, none) :=
  ⟨by decide, C9_known_non_app_suppressed true true _ (by decide)⟩

/-- C10: for a problem of the current user whose command line resolved to an
application that is not running again, the decision sets the restart flag,
whatever the auto-reporting, network, packaged and already-reported flags are;
every notification then shown carries the restart action. -/
theorem C10_restart_for_own_app (auto_reporting network_available : Bool) (a : GAppInfo)
    (pi : problem_info) (hown : pi.foreign = false)
    (hrun : is_app_running (some a) = false) :
    ∃ d : directive,
      notify_problem_list_decide auto_reporting network_available (some a) pi = some d ∧
      d.restart_button = true ∧
      ∀ nt, (notify_problem_list_show pi d).2 = some nt →
        notify_action.RESTART ∈ nt.actions := by
  rcases pi with ⟨dir, foreign, count, is_packaged, command_line, known, reported,
    was_announced, is_writable⟩
  simp only at hown
  subst hown
  by_cases hc : count > 1 <;> cases auto_reporting <;> cases is_packaged <;>
    cases network_available <;>
    simp [notify_problem_list_decide, notify_problem_list_show, hrun, hc]

theorem C10_restart_for_own_app_witness :
    (⟨some [47, 100], false, 2, false, some [102], false, false, false, false⟩ :
        problem_info).foreign = false ∧
    is_app_running (some ⟨true, [102], [102], [70]⟩) = false ∧
    ∃ d : directive,
      notify_problem_list_decide true false (some ⟨true, [102], [102], [70]⟩)
        ⟨some [47, 100], false, 2, false, some [102], false, false, false, false⟩ = some d ∧
      d.restart_button = true ∧
      ∀ nt, (notify_problem_list_show
          ⟨some [47, 100], false, 2, false, some [102], false, false, false, false⟩ d).2 =
            some nt →
        notify_action.RESTART ∈ nt.actions :=
  ⟨rfl, rfl, C10_restart_for_own_app true false _ _ rfl rfl⟩

/-! ## Facts about `notify_problem_list` -/

theorem notify_problem_list_decide_isSome (auto net : Bool) (app : Option GAppInfo)
    (pi : problem_info) (c : CStr) (hcmd : pi.command_line = some c) :
    ∃ d, notify_problem_list_decide auto net app pi = some d := by
  rcases pi with ⟨dir, foreign, count, is_packaged, command_line, known, reported,
    was_announced, is_writable⟩
  simp only at hcmd
  subst hcmd
  by_cases hc : count > 1 <;> cases app <;> cases auto <;> cases is_packaged <;> cases net <;>
    simp [notify_problem_list_decide, get_argv0, hc]

theorem create_app_from_cmdline_some (env : applet_env) (c : CStr) :
    create_app_from_cmdline env (some c) = some (env.find_app c) := rfl

/-- The loop of `notify_problem_list` runs through when every problem has a
command line; it treats the problems one by one. -/
theorem notify_problem_list_loop_some (env : applet_env) (problems : List problem_info)
    (hcmd : ∀ pi ∈ problems, pi.command_line ≠ none) :
    ∃ rs, notify_problem_list_loop env problems = some rs ∧
      List.Forall₂ (fun pi r => ∃ c d, pi.command_line = some c ∧
        notify_problem_list_decide env.auto_reporting (is_networking_enabled env)
          (env.find_app c) pi = some d ∧ r = notify_problem_list_show pi d) problems rs := by
  induction problems with
  | nil => exact ⟨[], rfl, List.Forall₂.nil⟩
  | cons pi rest ih =>
    obtain ⟨rs, hrs, hall⟩ := ih (fun p hp => hcmd p (List.mem_cons_of_mem _ hp))
    have hpi := hcmd pi (List.mem_cons_self _ _)
    obtain ⟨c, hc⟩ := Option.ne_none_iff_exists'.mp hpi
    obtain ⟨d, hd⟩ := notify_problem_list_decide_isSome env.auto_reporting
      (is_networking_enabled env) (env.find_app c) pi c hc
    refine ⟨notify_problem_list_show pi d :: rs, ?_, List.Forall₂.cons ⟨c, d, hc, hd, rfl⟩ hall⟩
    simp [notify_problem_list_loop, hc, create_app_from_cmdline_some, notify_problem_list_iter,
      hd, hrs]

/-- A call of `notify_problem_list` changes nothing but the last notified
identifier and the notifications shown. -/
theorem notify_problem_list_frame (env : applet_env) (st : applet_state)
    (problems : List problem_info) (r : applet_state × List problem_info)
    (h : notify_problem_list env st problems = some r) :
    r.1.g_deferred_crash_queue = st.g_deferred_crash_queue ∧
      r.1.g_deferred_timeout = st.g_deferred_timeout ∧
      r.1.idle_sources = st.idle_sources ∧ r.1.sessions = st.sessions := by
  unfold notify_problem_list at h
  split at h
  · cases h; exact ⟨rfl, rfl, rfl, rfl⟩
  · split at h
    · cases h
    · cases h; exact ⟨rfl, rfl, rfl, rfl⟩

theorem notify_problem_list_some (env : applet_env) (st : applet_state)
    (problems : List problem_info) (hcmd : ∀ pi ∈ problems, pi.command_line ≠ none) :
    ∃ r, notify_problem_list env st problems = some r := by
  obtain ⟨rs, hrs, _⟩ := notify_problem_list_loop_some env problems hcmd
  unfold notify_problem_list
  split
  · exact ⟨_, rfl⟩
  · rw [hrs]; exact ⟨_, rfl⟩

/-! ## Facts about the end of a handler run -/

theorem handle_event_status_eq (stop : Nat) (wait : Option Nat) (pi : problem_info) :
    handle_event_status stop wait pi =
      match spec_outcome stop (wait.getD 1) with
      | .Suppressed => (0, { pi with known := true })
      | .Succeeded => (0, pi)
      | .Failed => (wait.getD 1, pi) := by
  unfold handle_event_status spec_outcome WIFEXITED WEXITSTATUS
  by_cases h1 : wait.getD 1 % 128 = 0 ∧ wait.getD 1 / 256 % 256 = stop
  · simp [h1.1, h1.2]
  · by_cases h2 : wait.getD 1 = 0
    · have h3 : ¬ (0 = stop) := by
        intro h; apply h1; rw [h2]; simpa using h
      simp [h2, h3]
    · rw [if_neg h1, if_neg h2]
      rw [not_and] at h1
      by_cases h4 : wait.getD 1 % 128 = 0
      · simp [h4, h1 h4]
      · simp [h4]

theorem handle_event_exit_eq (stop : Nat) (env : applet_env) (st : applet_state)
    (wait : Option Nat) (pi : problem_info) :
    handle_event_exit stop env st wait pi =
      match spec_outcome stop (wait.getD 1) with
      | .Suppressed => notify_problem env st { pi with known := true, reported := true }
      | .Succeeded => notify_problem env st { pi with reported := true }
      | .Failed =>
        if is_networking_enabled env then notify_problem env st pi
        else some (push_to_deferred_queue st pi, [pi]) := by
  unfold handle_event_exit
  rw [handle_event_status_eq]
  cases h : spec_outcome stop (wait.getD 1)
  · simp
  · simp
  · have h0 : wait.getD 1 ≠ 0 := by
      intro h0
      unfold spec_outcome at h
      rw [h0] at h
      split_ifs at h with h1 h2
      exact h2 rfl
    simp [h0]

/-- Once the reads have ended, `handle_event_output_cb` does what lines
942-967 do, whatever was read before. -/
theorem handle_event_output_cb_end (stop : Nat) (env : applet_env) (st : applet_state)
    (state : event_processing_state) (chunks : List (List Nat)) (last : read_end)
    (wait : Option Nat) (hlast : last ≠ read_end.again) :
    (handle_event_output_cb stop env st state chunks last wait).map
        (fun r => (r.st, r.problems)) = handle_event_exit stop env st wait state.pi := by
  unfold handle_event_output_cb
  cases last with
  | again => exact absurd rfl hlast
  | eof => cases handle_event_exit stop env st wait state.pi <;> rfl
  | error => cases handle_event_exit stop env st wait state.pi <;> rfl

/-! ## The handler run and the notification: claims C11 to C14 -/

/-- C11, as stated, fails: for a packaged application of the current user,
with automatic reporting on and the network up, the notification carries the
restart action. -/
theorem C11_no_buttons_counterexample :
    notify_problem_list_iter true true (some ⟨true, [102], [102], [70]⟩) example_problem =
      some ({ example_problem with was_announced := true },
        some ⟨⟨notify_format.app_auto_reported, some [70]⟩, [notify_action.RESTART]⟩) := by
  decide

/-- C11, amended: for a packaged application, with automatic reporting on and
the network fully available, `notify_problem_list` shows the automatically
reported message naming the application, never with the report action, and
with the restart action exactly when the problem is not foreign. -/
theorem C11_packaged_app_auto_reported (a : GAppInfo) (pi : problem_info)
    (hpack : pi.is_packaged = true) :
    notify_problem_list_iter true true (some a) pi =
      some ({ pi with was_announced := true },
        some ⟨⟨notify_format.app_auto_reported, some a.display_name⟩,
          if pi.foreign then [] else [notify_action.RESTART]⟩) := by
  rcases pi with ⟨dir, foreign, count, is_packaged, command_line, known, reported,
    was_announced, is_writable⟩
  simp only at hpack
  subst hpack
  cases foreign <;>
    simp [notify_problem_list_iter, notify_problem_list_decide, notify_problem_list_show,
      is_app_running]

theorem C11_packaged_app_auto_reported_witness :
    example_problem.is_packaged = true ∧
    notify_problem_list_iter true true (some ⟨true, [102], [102], [70]⟩) example_problem =
      some ({ example_problem with was_announced := true },
        some ⟨⟨notify_format.app_auto_reported,
            some (⟨true, [102], [102], [70]⟩ : GAppInfo).display_name⟩,
          if example_problem.foreign then [] else [notify_action.RESTART]⟩) :=
  ⟨rfl, C11_packaged_app_auto_reported _ _ rfl⟩

/-- C12: when the reads of `handle_event_output_cb` end (end of file or read
error), what it does depends on the wait status alone, whatever output was
read: a normal exit with the stop-event code marks the problem known and takes
the success path, status zero takes the success path, and every other status
takes the failure path (notify when networking is enabled, else defer).  With
a stop-event code other than zero, status zero is a success and the default
status 1 of a failed wait is a failure. -/
theorem C12_outcome_from_wait_status (stop : Nat) (env : applet_env) (st : applet_state)
    (state : event_processing_state) (chunks : List (List Nat)) (last : read_end)
    (wait : Option Nat) (hlast : last ≠ read_end.again) (hstop : stop ≠ 0) :
    (handle_event_output_cb stop env st state chunks last wait).map
        (fun r => (r.st, r.problems)) =
      (match spec_outcome stop (wait.getD 1) with
        | .Suppressed =>
          notify_problem env st { state.pi with known := true, reported := true }
        | .Succeeded => notify_problem env st { state.pi with reported := true }
        | .Failed =>
          if is_networking_enabled env then notify_problem env st state.pi
          else some (push_to_deferred_queue st state.pi, [state.pi])) ∧
      spec_outcome stop 0 = handler_outcome.Succeeded ∧
      spec_outcome stop ((none : Option Nat).getD 1) = handler_outcome.Failed := by
  refine ⟨?_, ?_, ?_⟩
  · rw [← handle_event_exit_eq]
    exact handle_event_output_cb_end stop env st state chunks last wait hlast
  · unfold spec_outcome
    have : ¬ (0 = stop) := fun h => hstop h.symm
    simp [this]
  · simp [spec_outcome]

theorem C12_outcome_from_wait_status_witness :
    read_end.eof ≠ read_end.again ∧ (70 : Nat) ≠ 0 ∧
    ((handle_event_output_cb 70 env_offline initial_state ⟨[], example_problem, [114]⟩
          [[111, 117, 116, 10]] read_end.eof (some 256)).map
        (fun r => (r.st, r.problems)) =
      (match spec_outcome 70 ((some 256 : Option Nat).getD 1) with
        | .Suppressed =>
          notify_problem env_offline initial_state
            { (⟨[], example_problem, [114]⟩ : event_processing_state).pi with
              known := true, reported := true }
        | .Succeeded =>
          notify_problem env_offline initial_state
            { (⟨[], example_problem, [114]⟩ : event_processing_state).pi with reported := true }
        | .Failed =>
          if is_networking_enabled env_offline then
            notify_problem env_offline initial_state
              (⟨[], example_problem, [114]⟩ : event_processing_state).pi
          else some (push_to_deferred_queue initial_state
              (⟨[], example_problem, [114]⟩ : event_processing_state).pi,
            [(⟨[], example_problem, [114]⟩ : event_processing_state).pi])) ∧
      spec_outcome 70 0 = handler_outcome.Succeeded ∧
      spec_outcome 70 ((none : Option Nat).getD 1) = handler_outcome.Failed) :=
  ⟨by decide, by decide, C12_outcome_from_wait_status 70 _ _ _ _ _ _ (by decide) (by decide)⟩

/-- C13, as stated, fails: a handler that exits with the stop-event code (70
here, wait status 70 * 256) has its problem passed to `notify_problem`, and a
notification is shown. -/
theorem C13_suppressed_counterexample :
    (handle_event_output_cb 70 env_online initial_state ⟨[], example_problem, [114]⟩ []
        read_end.eof (some 17920)).map (fun r => (r.st.shown, r.problems)) =
      some ([⟨⟨notify_format.component_auto_reported, none⟩, []⟩],
        [{ example_problem with known := true, reported := true, was_announced := true }]) := by
  decide

/-- C13, amended: when the handler exits with the stop-event code, the problem
is marked known and reported, and it is passed to `notify_problem` as after a
successful run, so it is presented as the decision table says. -/
theorem C13_stop_exit_is_notified (stop : Nat) (env : applet_env) (st : applet_state)
    (state : event_processing_state) (chunks : List (List Nat)) (last : read_end)
    (status : Nat) (hlast : last ≠ read_end.again)
    (hexit : WIFEXITED status = true) (hcode : WEXITSTATUS status = stop) :
    (handle_event_output_cb stop env st state chunks last (some status)).map
        (fun r => (r.st, r.problems)) =
      notify_problem env st { state.pi with known := true, reported := true } := by
  have hout : spec_outcome stop ((some status : Option Nat).getD 1) =
      handler_outcome.Suppressed := by
    unfold WIFEXITED at hexit
    unfold WEXITSTATUS at hcode
    simp only [beq_iff_eq] at hexit
    simp [spec_outcome, hexit, hcode]
  have h := handle_event_exit_eq stop env st (some status) state.pi
  rw [hout] at h
  simp only at h
  rw [← h]
  exact handle_event_output_cb_end stop env st state chunks last (some status) hlast

theorem C13_stop_exit_is_notified_witness :
    read_end.eof ≠ read_end.again ∧ WIFEXITED 17920 = true ∧ WEXITSTATUS 17920 = 70 ∧
    (handle_event_output_cb 70 env_online initial_state ⟨[], example_problem, [114]⟩ []
        read_end.eof (some 17920)).map (fun r => (r.st, r.problems)) =
      notify_problem env_online initial_state
        { (⟨[], example_problem, [114]⟩ : event_processing_state).pi with
          known := true, reported := true } :=
  ⟨by decide, by decide, by decide,
    C13_stop_exit_is_notified 70 _ _ _ _ _ _ (by decide) (by decide) (by decide)⟩

/-- C14: after a failed handler run, networking is enabled exactly when the
network is available with full connectivity.  Without it the problem is
appended to the deferred queue and nothing else changes (no notification, no
change of the last notified problem); with it the problem is passed to
`notify_problem`, which returns when the problem has a command line and
leaves the deferred queue as it was. -/
theorem C14_failed_run_defers_or_notifies (stop : Nat) (env : applet_env) (st : applet_state)
    (state : event_processing_state) (chunks : List (List Nat)) (last : read_end)
    (wait : Option Nat) (hlast : last ≠ read_end.again)
    (hfail : spec_outcome stop (wait.getD 1) = handler_outcome.Failed) :
    is_networking_enabled env = (env.network_available && env.connectivity_full) ∧
    (is_networking_enabled env = false →
      (handle_event_output_cb stop env st state chunks last wait).map
          (fun r => (r.st, r.problems)) =
        some ({ st with g_deferred_crash_queue := st.g_deferred_crash_queue ++ [state.pi] },
          [state.pi])) ∧
    (is_networking_enabled env = true →
      (handle_event_output_cb stop env st state chunks last wait).map
          (fun r => (r.st, r.problems)) = notify_problem env st state.pi ∧
      (state.pi.command_line ≠ none → ∃ out, notify_problem env st state.pi = some out) ∧
      ∀ out, notify_problem env st state.pi = some out →
        out.1.g_deferred_crash_queue = st.g_deferred_crash_queue) := by
  have h := handle_event_exit_eq stop env st wait state.pi
  rw [hfail] at h
  simp only at h
  have hcb := handle_event_output_cb_end stop env st state chunks last wait hlast
  refine ⟨?_, ?_, ?_⟩
  · unfold is_networking_enabled
    cases env.network_available <;> simp
  · intro hnet
    rw [hcb, h, hnet]
    rfl
  · intro hnet
    refine ⟨?_, ?_, ?_⟩
    · rw [hcb, h, hnet]; rfl
    · intro hcmd
      exact notify_problem_list_some env st [state.pi] (by simpa using hcmd)
    · intro out hout
      exact (notify_problem_list_frame env st [state.pi] out hout).1

theorem C14_failed_run_defers_or_notifies_witness :
    read_end.eof ≠ read_end.again ∧
    spec_outcome 70 ((some 256 : Option Nat).getD 1) = handler_outcome.Failed ∧
    (is_networking_enabled env_offline =
        (env_offline.network_available && env_offline.connectivity_full) ∧
    (is_networking_enabled env_offline = false →
      (handle_event_output_cb 70 env_offline initial_state ⟨[], example_problem, [114]⟩
          [[111, 10]] read_end.eof (some 256)).map (fun r => (r.st, r.problems)) =
        some ({ initial_state with
            g_deferred_crash_queue := initial_state.g_deferred_crash_queue ++
              [(⟨[], example_problem, [114]⟩ : event_processing_state).pi] },
          [(⟨[], example_problem, [114]⟩ : event_processing_state).pi])) ∧
    (is_networking_enabled env_offline = true →
      (handle_event_output_cb 70 env_offline initial_state ⟨[], example_problem, [114]⟩
          [[111, 10]] read_end.eof (some 256)).map (fun r => (r.st, r.problems)) =
        notify_problem env_offline initial_state
          (⟨[], example_problem, [114]⟩ : event_processing_state).pi ∧
      ((⟨[], example_problem, [114]⟩ : event_processing_state).pi.command_line ≠ none →
        ∃ out, notify_problem env_offline initial_state
          (⟨[], example_problem, [114]⟩ : event_processing_state).pi = some out) ∧
      ∀ out, notify_problem env_offline initial_state
          (⟨[], example_problem, [114]⟩ : event_processing_state).pi = some out →
        out.1.g_deferred_crash_queue = initial_state.g_deferred_crash_queue)) :=
  ⟨by decide, by decide,
    C14_failed_run_defers_or_notifies 70 _ _ _ _ _ _ (by decide) (by decide)⟩

/-! ## Facts about the line splitter -/

theorem strchr_newline_some {raw : List Nat} {i : Nat} (h : strchr_newline raw = some i) :
    raw = raw.take i ++ 10 :: raw.drop (i + 1) ∧ 10 ∉ raw.take i ∧ i < raw.length := by
  induction raw generalizing i with
  | nil => simp [strchr_newline] at h
  | cons c cs ih =>
    simp only [strchr_newline] at h
    split_ifs at h with h1 h2
    · cases h
      subst h1
      simp
    · cases hcs : strchr_newline cs with
      | none => simp [hcs] at h
      | some j =>
        simp only [hcs, Option.map_some', Option.some.injEq] at h
        subst h
        obtain ⟨e1, e2, e3⟩ := ih hcs
        refine ⟨?_, ?_, ?_⟩
        · simp only [List.take_succ_cons, List.drop_succ_cons, List.cons_append]
          rw [← e1]
        · simp only [List.take_succ_cons, List.mem_cons, not_or]
          exact ⟨fun h => h1 h.symm, e2⟩
        · simp only [List.length_cons]; omega

theorem strchr_newline_none {raw : List Nat} (h : strchr_newline raw = none) (h0 : 0 ∉ raw) :
    10 ∉ raw ∧ c_string_at raw = raw := by
  induction raw with
  | nil => simp [c_string_at]
  | cons c cs ih =>
    simp only [strchr_newline] at h
    have hc0 : c ≠ 0 := fun hc => h0 (by simp [hc])
    have hcs0 : 0 ∉ cs := fun hm => h0 (List.mem_cons_of_mem _ hm)
    split_ifs at h with h1
    cases hcs : strchr_newline cs with
    | some j => simp [hcs] at h
    | none =>
      obtain ⟨e1, e2⟩ := ih hcs hcs0
      refine ⟨?_, ?_⟩
      · simp only [List.mem_cons, not_or]
        exact ⟨fun h => h1 h.symm, e1⟩
      · unfold c_string_at
        rw [List.takeWhile_cons]
        simp only [ne_eq, hc0, not_false_eq_true, decide_True, if_true, List.cons.injEq,
          true_and]
        exact e2

theorem terminated_append (l : List CStr) (x : CStr) :
    terminated (l ++ [x]) = terminated l ++ x ++ [10] := by
  simp [terminated]

/-- The line splitter keeps the text: the lines logged so far, each with its
newline, followed by the buffer, grow by exactly the bytes read; no logged
line and no buffer holds a newline. -/
theorem split_lines_spec (fuel : Nat) (raw : List Nat) (out : CStr) (log : List CStr)
    (hfuel : raw.length ≤ fuel) (h0 : 0 ∉ raw) (hout : 10 ∉ out) (hlog : ∀ l ∈ log, 10 ∉ l) :
    terminated (split_lines fuel raw out log).2 ++ (split_lines fuel raw out log).1 =
        terminated log ++ (out ++ raw) ∧
      10 ∉ (split_lines fuel raw out log).1 ∧
      ∀ l ∈ (split_lines fuel raw out log).2, 10 ∉ l := by
  induction fuel generalizing raw out log with
  | zero =>
    have hr : raw = [] := List.length_eq_zero.mp (by omega)
    subst hr
    simp [split_lines, c_string_at, hout]
    exact hlog
  | succ fuel ih =>
    unfold split_lines
    cases hs : strchr_newline raw with
    | none =>
      obtain ⟨e1, e2⟩ := strchr_newline_none hs h0
      simp only [e2]
      refine ⟨trivial, ?_, hlog⟩
      simp [hout, e1]
    | some i =>
      obtain ⟨e1, e2, e3⟩ := strchr_newline_some hs
      simp only
      have hdrop0 : 0 ∉ raw.drop (i + 1) := fun hm => h0 (List.mem_of_mem_drop hm)
      have hlen : (raw.drop (i + 1)).length ≤ fuel := by
        simp only [List.length_drop]; omega
      have hlog2 : ∀ l ∈ log ++ [out ++ raw.take i], 10 ∉ l := by
        intro l hl
        rcases List.mem_append.mp hl with hl | hl
        · exact hlog l hl
        · simp only [List.mem_singleton] at hl
          subst hl
          simp [hout, e2]
      obtain ⟨r1, r2, r3⟩ := ih (raw.drop (i + 1)) [] (log ++ [out ++ raw.take i]) hlen hdrop0
        (by simp) hlog2
      refine ⟨?_, r2, r3⟩
      rw [r1, terminated_append]
      conv_rhs => rw [e1]
      simp

theorem read_chunks_spec (chunks : List (List Nat)) (out : CStr) (log : List CStr)
    (h0 : ∀ c ∈ chunks, 0 ∉ c) (hout : 10 ∉ out) (hlog : ∀ l ∈ log, 10 ∉ l) :
    terminated (read_chunks out log chunks).2 ++ (read_chunks out log chunks).1 =
        terminated log ++ (out ++ chunks.flatten) ∧
      10 ∉ (read_chunks out log chunks).1 ∧
      ∀ l ∈ (read_chunks out log chunks).2, 10 ∉ l := by
  induction chunks generalizing out log with
  | nil => simp [read_chunks, hout]; exact hlog
  | cons c rest ih =>
    obtain ⟨s1, s2, s3⟩ := split_lines_spec c.length c out log le_rfl
      (h0 c (List.mem_cons_self _ _)) hout hlog
    obtain ⟨r1, r2, r3⟩ := ih (read_chunk out log c).1 (read_chunk out log c).2
      (fun x hx => h0 x (List.mem_cons_of_mem _ hx)) s2 s3
    unfold read_chunks
    refine ⟨?_, r2, r3⟩
    rw [r1]
    unfold read_chunk
    rw [← List.append_assoc, s1]
    simp

/-! ## Ownership, line splitting and the announced flag: claims C17, C19, C20 -/

/-- C17: for a problem that is foreign and not yet writable, when taking over
its directory fails, `problem_info_ensure_writable` returns false and leaves
the problem as it was (not writable), and `run_event_async` starts no handler
and touches nothing: no notification, no queue entry. -/
theorem C17_foreign_chown_failure_discards (env : applet_env) (st : applet_state)
    (pi : problem_info) (event_name : CStr) (hforeign : pi.foreign = true)
    (hwritable : pi.is_writable = false) (hchown : env.chown_dir_over_dbus pi.dir ≠ 0) :
    problem_info_ensure_writable env pi = (false, pi) ∧
      (problem_info_ensure_writable env pi).2.is_writable = false ∧
      run_event_async env st pi event_name = st := by
  have h : problem_info_ensure_writable env pi = (false, pi) := by
    simp [problem_info_ensure_writable, hforeign, hwritable, hchown]
  refine ⟨h, by rw [h]; exact hwritable, ?_⟩
  simp [run_event_async, h]

theorem C17_foreign_chown_failure_discards_witness :
    ({ example_problem with foreign := true, is_writable := false } : problem_info).foreign
        = true ∧
    ({ example_problem with foreign := true, is_writable := false } : problem_info).is_writable
        = false ∧
    env_no_chown.chown_dir_over_dbus
        ({ example_problem with foreign := true, is_writable := false } : problem_info).dir
        ≠ 0 ∧
    (problem_info_ensure_writable env_no_chown
        { example_problem with foreign := true, is_writable := false } =
        (false, { example_problem with foreign := true, is_writable := false }) ∧
      (problem_info_ensure_writable env_no_chown
        { example_problem with foreign := true, is_writable := false }).2.is_writable = false ∧
      run_event_async env_no_chown initial_state
        { example_problem with foreign := true, is_writable := false } [114] = initial_state) :=
  ⟨rfl, rfl, by decide,
    C17_foreign_chown_failure_discards env_no_chown initial_state _ [114] rfl rfl (by decide)⟩

/-- C19: for reads that hold no NUL byte, started from a session buffer
without a newline, the lines passed to the log, each followed by a newline,
and then the session buffer, are together exactly the old buffer followed by
all the bytes read, wherever the reads were cut; no logged line and no buffer
holds a newline, so the buffer is the text after the last newline.  A call of
`handle_event_output_cb` that ends on a would-block read logs these lines and
keeps this buffer in the session. -/
theorem C19_lines_of_concatenation (buffer : CStr) (chunks : List (List Nat))
    (hnul : ∀ c ∈ chunks, 0 ∉ c) (hbuf : 10 ∉ buffer) :
    terminated (read_chunks buffer [] chunks).2 ++ (read_chunks buffer [] chunks).1 =
        buffer ++ chunks.flatten ∧
      10 ∉ (read_chunks buffer [] chunks).1 ∧
      (∀ l ∈ (read_chunks buffer [] chunks).2, 10 ∉ l) ∧
      ∀ (stop : Nat) (env : applet_env) (st : applet_state) (pi : problem_info)
        (event_name : CStr) (wait : Option Nat),
        handle_event_output_cb stop env st ⟨buffer, pi, event_name⟩ chunks read_end.again wait =
          some { keep := true, st := st,
                 session := some ⟨(read_chunks buffer [] chunks).1, pi, event_name⟩,
                 logged := (read_chunks buffer [] chunks).2, problems := [pi] } := by
  obtain ⟨r1, r2, r3⟩ := read_chunks_spec chunks buffer [] hnul hbuf (by simp)
  refine ⟨?_, r2, r3, ?_⟩
  · rw [r1]; simp [terminated]
  · intros; rfl

theorem C19_lines_of_concatenation_witness :
    (∀ c ∈ ([[97, 98, 10, 99], [100, 10, 10, 101]] : List (List Nat)), 0 ∉ c) ∧
    10 ∉ ([120] : CStr) ∧
    (terminated (read_chunks [120] [] [[97, 98, 10, 99], [100, 10, 10, 101]]).2 ++
          (read_chunks [120] [] [[97, 98, 10, 99], [100, 10, 10, 101]]).1 =
        [120] ++ ([[97, 98, 10, 99], [100, 10, 10, 101]] : List (List Nat)).flatten ∧
      10 ∉ (read_chunks [120] [] [[97, 98, 10, 99], [100, 10, 10, 101]]).1 ∧
      (∀ l ∈ (read_chunks [120] [] [[97, 98, 10, 99], [100, 10, 10, 101]]).2, 10 ∉ l) ∧
      ∀ (stop : Nat) (env : applet_env) (st : applet_state) (pi : problem_info)
        (event_name : CStr) (wait : Option Nat),
        handle_event_output_cb stop env st ⟨[120], pi, event_name⟩
            [[97, 98, 10, 99], [100, 10, 10, 101]] read_end.again wait =
          some { keep := true, st := st,
                 session := some ⟨(read_chunks [120] []
                   [[97, 98, 10, 99], [100, 10, 10, 101]]).1, pi, event_name⟩,
                 logged := (read_chunks [120] [] [[97, 98, 10, 99], [100, 10, 10, 101]]).2,
                 problems := [pi] }) :=
  ⟨by decide, by decide, C19_lines_of_concatenation _ _ (by decide) (by decide)⟩

/-- C20, as stated, fails: where `notify_notification_show` fails, a problem
with a message is marked announced although no notification was emitted for
it: one notification is passed to `notify_notification_show`, none is
displayed, and `was_announced` is set. -/
theorem C20_announced_iff_shown_counterexample :
    example_problem.was_announced = false ∧
    (notify_problem_list env_show_fails initial_state [example_problem]).map
        (fun r => (r.1.shown.length, r.1.displayed, r.2.map (fun pi => pi.was_announced))) =
      some (1, [], [true]) := by
  decide

/-- C20, amended: a call of `notify_problem_list` on problems that have a
command line returns, and for each problem in turn it sets `was_announced`
exactly when a message was chosen for it and its notification passed to
`notify_notification_show`, whether or not that call succeeds; a problem
without a message is left as it was.  The notifications passed on are those of
the problems with a message, in order, and the ones displayed are those among
them for which `notify_notification_show` succeeds. -/
theorem C20_announced_iff_shown (env : applet_env) (st : applet_state)
    (problems : List problem_info) (hcmd : ∀ pi ∈ problems, pi.command_line ≠ none) :
    ∃ (st1 : applet_state) (rs : List (problem_info × Option notification)),
      notify_problem_list env st problems = some (st1, rs.map (fun r => r.1)) ∧
      st1.shown = st.shown ++ rs.filterMap (fun r => r.2) ∧
      st1.displayed = st.displayed ++
        (rs.filterMap (fun r => r.2)).filter env.notify_notification_show ∧
      List.Forall₂ (fun pi r => ∃ c d, pi.command_line = some c ∧
        notify_problem_list_decide env.auto_reporting (is_networking_enabled env)
          (env.find_app c) pi = some d ∧
        r.2 = d.notify_body.map (fun body => ⟨body,
          (if d.report_button then [notify_action.REPORT] else []) ++
            (if d.restart_button then [notify_action.RESTART] else [])⟩) ∧
        r.1 = if r.2.isSome then { pi with was_announced := true } else pi) problems rs := by
  obtain ⟨rs, hrs, hall⟩ := notify_problem_list_loop_some env problems hcmd
  have hall2 : List.Forall₂ (fun pi r => ∃ c d, pi.command_line = some c ∧
      notify_problem_list_decide env.auto_reporting (is_networking_enabled env)
        (env.find_app c) pi = some d ∧
      r.2 = d.notify_body.map (fun body => ⟨body,
        (if d.report_button then [notify_action.REPORT] else []) ++
          (if d.restart_button then [notify_action.RESTART] else [])⟩) ∧
      r.1 = if r.2.isSome then { pi with was_announced := true } else pi) problems rs := by
    refine hall.imp ?_
    rintro pi r ⟨c, d, hc, hd, hr⟩
    refine ⟨c, d, hc, hd, ?_⟩
    subst hr
    unfold notify_problem_list_show
    cases d.notify_body <;> simp
  cases hlast : problems.getLast? with
  | none =>
    have hnil : problems = [] := List.getLast?_eq_none_iff.mp hlast
    subst hnil
    cases hall
    exact ⟨st, [], by simp [notify_problem_list], by simp, by simp, List.Forall₂.nil⟩
  | some last =>
    refine ⟨{ st with g_last_notified_problem_id := last.dir,
                      shown := st.shown ++ rs.filterMap (fun r => r.2),
                      displayed := st.displayed ++
                        (rs.filterMap (fun r => r.2)).filter env.notify_notification_show },
      rs, ?_, rfl, rfl, hall2⟩
    simp only [notify_problem_list, hlast, hrs]

theorem C20_announced_iff_shown_witness :
    (∀ pi ∈ [example_problem, { example_problem with count := 2 }],
      pi.command_line ≠ none) ∧
    ∃ (st1 : applet_state) (rs : List (problem_info × Option notification)),
      notify_problem_list env_show_fails initial_state
          [example_problem, { example_problem with count := 2 }] =
        some (st1, rs.map (fun r => r.1)) ∧
      st1.shown = initial_state.shown ++ rs.filterMap (fun r => r.2) ∧
      st1.displayed = initial_state.displayed ++
        (rs.filterMap (fun r => r.2)).filter env_show_fails.notify_notification_show ∧
      List.Forall₂ (fun pi r => ∃ c d, pi.command_line = some c ∧
        notify_problem_list_decide env_show_fails.auto_reporting
          (is_networking_enabled env_show_fails) (env_show_fails.find_app c) pi = some d ∧
        r.2 = d.notify_body.map (fun body => ⟨body,
          (if d.report_button then [notify_action.REPORT] else []) ++
            (if d.restart_button then [notify_action.RESTART] else [])⟩) ∧
        r.1 = if r.2.isSome then { pi with was_announced := true } else pi)
        [example_problem, { example_problem with count := 2 }] rs :=
  ⟨by decide, C20_announced_iff_shown env_show_fails initial_state _ (by decide)⟩

/-! ## Facts about the pending flush -/

theorem run_event_async_frame (env : applet_env) (st : applet_state) (pi : problem_info)
    (ev : CStr) :
    (run_event_async env st pi ev).g_deferred_crash_queue = st.g_deferred_crash_queue ∧
      (run_event_async env st pi ev).g_deferred_timeout = st.g_deferred_timeout ∧
      (run_event_async env st pi ev).idle_sources = st.idle_sources := by
  unfold run_event_async
  split_ifs <;> exact ⟨rfl, rfl, rfl⟩

theorem autoreport_own_problems_frame (env : applet_env) (st : applet_state)
    (problems : List problem_info) :
    (autoreport_own_problems env st problems).1.g_deferred_crash_queue =
        st.g_deferred_crash_queue ∧
      (autoreport_own_problems env st problems).1.g_deferred_timeout = st.g_deferred_timeout ∧
      (autoreport_own_problems env st problems).1.idle_sources = st.idle_sources := by
  induction problems generalizing st with
  | nil => exact ⟨rfl, rfl, rfl⟩
  | cons data next ih =>
    unfold autoreport_own_problems
    split_ifs
    · obtain ⟨a1, a2, a3⟩ := ih (run_event_async env st data env.autoreport_event_name)
      obtain ⟨b1, b2, b3⟩ := run_event_async_frame env st data env.autoreport_event_name
      exact ⟨a1.trans b1, a2.trans b2, a3.trans b3⟩
    · exact ih st

/-- A call of `show_problem_list_notification` leaves the deferred queue, the
pending flush handle and the idle sources as they were. -/
theorem show_problem_list_notification_frame (env : applet_env) (st : applet_state)
    (problems : List problem_info) (r : applet_state × List problem_info)
    (h : show_problem_list_notification env st problems = some r) :
    r.1.g_deferred_crash_queue = st.g_deferred_crash_queue ∧
      r.1.g_deferred_timeout = st.g_deferred_timeout ∧
      r.1.idle_sources = st.idle_sources := by
  have key : ∀ r0 : applet_state × List problem_info,
      (r0.1.g_deferred_crash_queue = st.g_deferred_crash_queue ∧
        r0.1.g_deferred_timeout = st.g_deferred_timeout ∧
        r0.1.idle_sources = st.idle_sources) →
      (if r0.2 ≠ [] then notify_problem_list env r0.1 r0.2 else some (r0.1, [])) = some r →
      r.1.g_deferred_crash_queue = st.g_deferred_crash_queue ∧
        r.1.g_deferred_timeout = st.g_deferred_timeout ∧
        r.1.idle_sources = st.idle_sources := by
    rintro r0 ⟨a1, a2, a3⟩ h0
    split_ifs at h0
    · obtain ⟨b1, b2, b3, _⟩ := notify_problem_list_frame env _ _ r h0
      exact ⟨b1.trans a1, b2.trans a2, b3.trans a3⟩
    · cases h0; exact ⟨a1, a2, a3⟩
  refine key (if env.auto_reporting then autoreport_own_problems env st problems
    else (st, problems)) ?_ h
  split_ifs
  · exact autoreport_own_problems_frame env st problems
  · exact ⟨rfl, rfl, rfl⟩

theorem handle_event_output_cb_frame (stop : Nat) (env : applet_env) (st : applet_state)
    (state : event_processing_state) (chunks : List (List Nat)) (last : read_end)
    (wait : Option Nat) (r : output_cb_result)
    (h : handle_event_output_cb stop env st state chunks last wait = some r) :
    r.st.g_deferred_timeout = st.g_deferred_timeout ∧ r.st.idle_sources = st.idle_sources := by
  by_cases hlast : last = read_end.again
  · subst hlast
    simp only [handle_event_output_cb, Option.some.injEq] at h
    subst h
    exact ⟨rfl, rfl⟩
  · have hend := handle_event_output_cb_end stop env st state chunks last wait hlast
    rw [h, handle_event_exit_eq] at hend
    simp only [Option.map_some'] at hend
    have key : ∀ pi, notify_problem env st pi = some (r.st, r.problems) →
        r.st.g_deferred_timeout = st.g_deferred_timeout ∧
          r.st.idle_sources = st.idle_sources := by
      intro pi hpi
      obtain ⟨_, b2, b3, _⟩ := notify_problem_list_frame env st [pi] _ hpi
      exact ⟨b2, b3⟩
    cases hout : spec_outcome stop (wait.getD 1) with
    | Suppressed => rw [hout] at hend; exact key _ hend.symm
    | Succeeded => rw [hout] at hend; exact key _ hend.symm
    | Failed =>
      rw [hout] at hend
      simp only at hend
      split_ifs at hend
      · exact key _ hend.symm
      · simp only [Option.some.injEq, Prod.mk.injEq] at hend
        rw [hend.1]
        exact ⟨rfl, rfl⟩

theorem connectivity_changed_cb_schedules (env : applet_env) (st : applet_state) (id : Nat)
    (inv : ∀ p ∈ st.idle_sources, p.1 = st.g_deferred_timeout ∧ p.1 ≠ 0)
    (hnet : (env.network_available && env.connectivity_full) = true) :
    (connectivity_changed_cb env st id).idle_sources.map (fun p => p.1) = [id] ∧
      (connectivity_changed_cb env st id).g_deferred_timeout = id := by
  unfold connectivity_changed_cb
  rw [if_pos hnet]
  split_ifs with hto
  · have hempty : (g_source_remove st st.g_deferred_timeout).idle_sources = [] := by
      simp only [g_source_remove, List.filter_eq_nil_iff]
      intro p hp
      simp [(inv p hp).1]
    simp [hempty]
  · have hempty : st.idle_sources = [] := by
      rw [List.eq_nil_iff_forall_not_mem]
      intro p hp
      have := inv p hp
      rw [not_not] at hto
      exact this.2 (this.1.trans hto)
    simp [hempty]

theorem dispatch_idle_clears (env : applet_env) (st st1 : applet_state) (id : Nat)
    (inv : ∀ p ∈ st.idle_sources, p.1 = st.g_deferred_timeout ∧ p.1 ≠ 0)
    (hid : id ∈ st.idle_sources.map (fun p => p.1))
    (hd : dispatch_idle env st id = some st1) :
    st1.g_deferred_timeout = 0 ∧ st1.idle_sources = [] := by
  unfold dispatch_idle at hd
  cases hf : st.idle_sources.find? (fun p => p.1 = id) with
  | none =>
    rw [List.find?_eq_none] at hf
    obtain ⟨p, hp, hpid⟩ := List.mem_map.mp hid
    exact absurd (by simpa using hpid) (hf p hp)
  | some p =>
    simp only [hf] at hd
    cases hp : process_deferred_queue_timeout_fn env st (queue_at st p.2) with
    | none => simp [hp] at hd
    | some r =>
      simp only [hp, Option.some.injEq] at hd
      subst hd
      obtain ⟨_, f2, f3⟩ := show_problem_list_notification_frame env _ _ r hp
      have hmem : p ∈ st.idle_sources := List.mem_of_find?_eq_some hf
      have hpid : p.1 = id := by simpa using List.find?_some hf
      refine ⟨by simpa [g_source_remove] using f2, ?_⟩
      simp only [g_source_remove, List.filter_eq_nil_iff, f3]
      intro q hq
      have h1 := (inv q hq).1
      have h2 := (inv p hmem).1
      simp [h1, ← h2, hpid]

/-- In every reachable state the idle sources that run the flush are at most
one, and it is the one `g_deferred_timeout` names. -/
theorem reachable_pending_flush (stop : Nat) (st : applet_state) (h : reachable stop st) :
    st.idle_sources.length ≤ 1 ∧
      ∀ p ∈ st.idle_sources, p.1 = st.g_deferred_timeout ∧ p.1 ≠ 0 := by
  induction h with
  | init => simp [initial_state]
  | connectivity env st new_id _ hid _ ih =>
    by_cases hnet : (env.network_available && env.connectivity_full) = true
    · obtain ⟨h1, h2⟩ := connectivity_changed_cb_schedules env st new_id ih.2 hnet
      have hlen : (connectivity_changed_cb env st new_id).idle_sources.length = 1 := by
        have := congrArg List.length h1
        simpa using this
      refine ⟨by omega, ?_⟩
      intro p hp
      have hp1 : p.1 ∈ (connectivity_changed_cb env st new_id).idle_sources.map (fun p => p.1) :=
        List.mem_map.mpr ⟨p, hp, rfl⟩
      rw [h1, List.mem_singleton] at hp1
      rw [h2, hp1]
      exact ⟨rfl, hid⟩
    · have : connectivity_changed_cb env st new_id = st := by
        simp [connectivity_changed_cb, hnet]
      rw [this]; exact ih
  | idle env st st1 id _ hd ih =>
    by_cases hid : id ∈ st.idle_sources.map (fun p => p.1)
    · obtain ⟨h1, h2⟩ := dispatch_idle_clears env st st1 id ih.2 hid hd
      simp [h2]
    · have hf : st.idle_sources.find? (fun p => p.1 = id) = none := by
        rw [List.find?_eq_none]
        intro p hp hpid
        exact hid (List.mem_map.mpr ⟨p, hp, by simpa using hpid⟩)
      simp only [dispatch_idle, hf, Option.some.injEq] at hd
      subst hd
      exact ih
  | output env st state chunks last wait r _ hr ih =>
    obtain ⟨f1, f2⟩ := handle_event_output_cb_frame stop env st state chunks last wait r hr
    rw [f1, f2]; exact ih
  | problems env st l r _ hr ih =>
    obtain ⟨_, f2, f3⟩ := show_problem_list_notification_frame env st l r hr
    rw [f2, f3]; exact ih

/-! ## The pending flush and the deferred queue: claims C15 and C16 -/

/-- C16: in every reachable state at most one idle source for the flush is
pending.  A connectivity signal with the network available and full
connectivity leaves exactly the newly scheduled source pending, with its
identifier in `g_deferred_timeout`; any other connectivity signal changes
nothing; and when a pending flush runs, `g_deferred_timeout` is cleared and no
flush is pending. -/
theorem C16_one_pending_flush (stop : Nat) (st : applet_state) (h : reachable stop st) :
    st.idle_sources.length ≤ 1 ∧
    (∀ (env : applet_env) (id : Nat),
      (env.network_available && env.connectivity_full) = true → id ≠ 0 →
      (connectivity_changed_cb env st id).idle_sources.map (fun p => p.1) = [id] ∧
        (connectivity_changed_cb env st id).g_deferred_timeout = id) ∧
    (∀ (env : applet_env) (id : Nat),
      (env.network_available && env.connectivity_full) = false →
      connectivity_changed_cb env st id = st) ∧
    (∀ (env : applet_env) (id : Nat) (st1 : applet_state),
      id ∈ st.idle_sources.map (fun p => p.1) → dispatch_idle env st id = some st1 →
      st1.g_deferred_timeout = 0 ∧ st1.idle_sources = []) := by
  have inv := reachable_pending_flush stop st h
  refine ⟨inv.1, ?_, ?_, ?_⟩
  · intro env id hnet _
    exact connectivity_changed_cb_schedules env st id inv.2 hnet
  · intro env id hnet
    simp [connectivity_changed_cb, hnet]
  · intro env id st1 hid hd
    exact dispatch_idle_clears env st st1 id inv.2 hid hd

theorem C16_one_pending_flush_witness :
    reachable 70 (connectivity_changed_cb env_online initial_state 1) ∧
    ((connectivity_changed_cb env_online initial_state 1).idle_sources.length ≤ 1 ∧
    (∀ (env : applet_env) (id : Nat),
      (env.network_available && env.connectivity_full) = true → id ≠ 0 →
      (connectivity_changed_cb env (connectivity_changed_cb env_online initial_state 1)
          id).idle_sources.map (fun p => p.1) = [id] ∧
        (connectivity_changed_cb env (connectivity_changed_cb env_online initial_state 1)
          id).g_deferred_timeout = id) ∧
    (∀ (env : applet_env) (id : Nat),
      (env.network_available && env.connectivity_full) = false →
      connectivity_changed_cb env (connectivity_changed_cb env_online initial_state 1) id =
        connectivity_changed_cb env_online initial_state 1) ∧
    (∀ (env : applet_env) (id : Nat) (st1 : applet_state),
      id ∈ (connectivity_changed_cb env_online initial_state 1).idle_sources.map
        (fun p => p.1) →
      dispatch_idle env (connectivity_changed_cb env_online initial_state 1) id = some st1 →
      st1.g_deferred_timeout = 0 ∧ st1.idle_sources = [])) :=
  ⟨reachable.connectivity env_online initial_state 1 reachable.init (by decide)
      (by intro p hp; cases hp),
    C16_one_pending_flush 70 _
      (reachable.connectivity env_online initial_state 1 reachable.init (by decide)
        (by intro p hp; cases hp))⟩

/-- C15: the code breaks the claim.  A problem deferred by a failed handler
run is handed on by the first flush, yet `g_deferred_crash_queue` still holds
it afterwards, and the next connectivity signal and flush hand the same
problem on a second time. -/
theorem C15_flush_leaves_queue :
    ((handle_event_output_cb 70 env_offline initial_state ⟨[], example_problem, [114]⟩ []
          read_end.eof (some 256)).bind
        (fun r0 => dispatch_idle env_online (connectivity_changed_cb env_online r0.st 1) 1)).map
        (fun s1 => (s1.g_deferred_crash_queue, s1.sessions)) =
      some ([example_problem], [⟨[], example_problem, [114]⟩]) ∧
    (((handle_event_output_cb 70 env_offline initial_state ⟨[], example_problem, [114]⟩ []
          read_end.eof (some 256)).bind
        (fun r0 => dispatch_idle env_online (connectivity_changed_cb env_online r0.st 1) 1)).bind
        (fun s1 => dispatch_idle env_online (connectivity_changed_cb env_online s1 2) 2)).map
        (fun s2 => (s2.g_deferred_crash_queue, s2.sessions)) =
      some ([example_problem],
        [⟨[], example_problem, [114]⟩, ⟨[], example_problem, [114]⟩]) := by
  decide

/-! ## Facts about `strtoul` -/

theorem strtoul_digits_all (ds : List Nat) (acc : Nat) (h : ∀ c ∈ ds, isdigit c = true) :
    strtoul_digits ds acc = (ds.foldl (fun a c => a * 10 + (c - 48)) acc, []) := by
  induction ds generalizing acc with
  | nil => rfl
  | cons c cs ih =>
    have hc := h c (List.mem_cons_self _ _)
    simp only [strtoul_digits, hc, if_true, List.foldl_cons]
    exact ih _ (fun x hx => h x (List.mem_cons_of_mem _ hx))

theorem strtoul_digits_end (l : List Nat) (acc : Nat) (h : (strtoul_digits l acc).2 = []) :
    ∀ c ∈ l, isdigit c = true := by
  induction l generalizing acc with
  | nil => simp
  | cons c cs ih =>
    simp only [strtoul_digits] at h
    split_ifs at h with hc
    · intro x hx
      rcases List.mem_cons.mp hx with rfl | hx
      · exact hc
      · exact ih _ h x hx

theorem dropWhile_isspace_append (ws t : List Nat) (hws : ∀ c ∈ ws, isspace c = true)
    (ht : ∀ c, t.head? = some c → isspace c = false) :
    (ws ++ t).dropWhile isspace = t := by
  induction ws with
  | nil =>
    cases t with
    | nil => rfl
    | cons c cs => simp [List.dropWhile_cons, ht c rfl]
  | cons w ws ih =>
    have hw := hws w (List.mem_cons_self _ _)
    simp only [List.cons_append, List.dropWhile_cons, hw, if_true]
    exact ih (fun x hx => hws x (List.mem_cons_of_mem _ hx))

theorem isdigit_not_space {c : Nat} (h : isdigit c = true) :
    isspace c = false ∧ c ≠ 43 ∧ c ≠ 45 := by
  unfold isdigit at h
  simp only [Bool.and_eq_true, decide_eq_true_eq] at h
  refine ⟨?_, by omega, by omega⟩
  unfold isspace
  have h1 : (c == 32) = false := by simp; omega
  have h2 : decide (c ≤ 13) = false := by simp; omega
  simp [h1, h2]

theorem strtoul_convert_iff (M uid : Nat) (nptr : CStr) (neg : Bool) (s1 : List Nat)
    (hn : nptr ≠ []) :
    ((strtoul_convert M nptr neg s1).erange = false ∧ (strtoul_convert M nptr neg s1).endptr = []
        ∧ (strtoul_convert M nptr neg s1).value = uid) ↔
      (s1 ≠ [] ∧ (∀ c ∈ s1, isdigit c = true) ∧ decimal_value s1 ≤ M ∧
        uid = if neg then (M + 1 - decimal_value s1) % (M + 1) else decimal_value s1) := by
  unfold strtoul_convert
  constructor
  · rintro ⟨h1, h2, h3⟩
    by_cases hd : (s1.head?.map isdigit).getD false = true
    · rw [if_pos hd] at h1 h2 h3
      by_cases hover : (strtoul_digits s1 0).1 > M
      · rw [if_pos hover] at h1
        simp at h1
      · rw [if_neg hover] at h2 h3
        simp only at h2 h3
        have hall := strtoul_digits_end s1 0 h2
        have hval : (strtoul_digits s1 0).1 = decimal_value s1 := by
          rw [strtoul_digits_all s1 0 hall]; rfl
        rw [hval] at hover h3
        refine ⟨?_, hall, by omega, h3.symm⟩
        intro hnil; simp [hnil] at hd
    · rw [if_neg hd] at h2
      exact absurd h2 hn
  · rintro ⟨hne, hall, hle, hu⟩
    obtain ⟨d, dr, hdd⟩ := List.exists_cons_of_ne_nil hne
    have hd : isdigit d = true := hall d (by simp [hdd])
    have hhead : (s1.head?.map isdigit).getD false = true := by simp [hdd, hd]
    have hdig : strtoul_digits s1 0 = (decimal_value s1, []) := strtoul_digits_all s1 0 hall
    rw [if_pos hhead, hdig]
    have : ¬ decimal_value s1 > M := by omega
    simp only [this, if_false]
    exact ⟨trivial, trivial, hu.symm⟩

/-- The text `strtoul` reads in full without a range error is white space, an
optional sign and digits, and its value is the number they denote. -/
theorem strtoul_complete_iff (M uid : Nat) (s : CStr) (hs : s ≠ []) :
    ((strtoul M s).erange = false ∧ (strtoul M s).endptr = [] ∧ (strtoul M s).value = uid) ↔
      strtoul_reads_as M s uid := by
  have hsplit0 : s = s.takeWhile isspace ++ s.dropWhile isspace :=
    (List.takeWhile_append_dropWhile isspace s).symm
  have hws0 : ∀ c ∈ s.takeWhile isspace, isspace c = true :=
    fun c hc => List.mem_takeWhile_imp hc
  constructor
  · intro h
    unfold strtoul at h
    cases ht : s.dropWhile isspace with
    | nil =>
      simp only [ht] at h
      rw [strtoul_convert_iff M uid s false [] hs] at h
      exact absurd rfl h.1
    | cons c rest =>
      simp only [ht] at h
      rw [ht] at hsplit0
      split_ifs at h with h45 h43
      · rw [strtoul_convert_iff M uid s true rest hs] at h
        obtain ⟨a1, a2, a3, a4⟩ := h
        subst h45
        exact ⟨_, [45], rest, hsplit0, hws0, Or.inr (Or.inr rfl), a1, a2, a3, by simpa using a4⟩
      · rw [strtoul_convert_iff M uid s false rest hs] at h
        obtain ⟨a1, a2, a3, a4⟩ := h
        subst h43
        exact ⟨_, [43], rest, hsplit0, hws0, Or.inr (Or.inl rfl), a1, a2, a3, by simpa using a4⟩
      · rw [strtoul_convert_iff M uid s false (c :: rest) hs] at h
        obtain ⟨a1, a2, a3, a4⟩ := h
        exact ⟨_, [], c :: rest, by simpa using hsplit0, hws0, Or.inl rfl, a1, a2, a3,
          by simpa using a4⟩
  · rintro ⟨ws, sg, ds, hsplit, hws, hsg, hds, hdig, hrange, hn⟩
    obtain ⟨d, dr, hdd⟩ := List.exists_cons_of_ne_nil hds
    have hd : isdigit d = true := hdig d (by simp [hdd])
    obtain ⟨dsp, d43, d45⟩ := isdigit_not_space hd
    have hdrop : s.dropWhile isspace = sg ++ ds := by
      rw [hsplit]
      apply dropWhile_isspace_append ws (sg ++ ds) hws
      intro c hc
      rcases hsg with rfl | rfl | rfl
      · simp [hdd] at hc; rw [← hc]; exact dsp
      · simp at hc; rw [← hc]; decide
      · simp at hc; rw [← hc]; decide
    unfold strtoul
    rcases hsg with rfl | rfl | rfl
    · simp only [List.nil_append] at hdrop
      rw [hdrop, hdd]
      simp only [d45, d43, if_false]
      rw [← hdd, strtoul_convert_iff M uid s false ds hs]
      exact ⟨hds, hdig, hrange, by simpa using hn⟩
    · simp only [List.singleton_append] at hdrop
      rw [hdrop]
      simp only [if_true, Nat.reduceEqDiff, if_false]
      rw [strtoul_convert_iff M uid s false ds hs]
      exact ⟨hds, hdig, hrange, by simpa using hn⟩
    · simp only [List.singleton_append] at hdrop
      rw [hdrop]
      simp only [if_true]
      rw [strtoul_convert_iff M uid s true ds hs]
      exact ⟨hds, hdig, hrange, by simpa using hn⟩

/-! ## The classification of a crash signal: claim C18 -/

/-- When `Crash` sets `foreign_problem`: the uid string is not empty and
`strtoul` does not read it in full, without a range error, as the uid. -/
theorem Crash_foreign_problem_iff (ULONG_MAX uid : Nat) (uid_str : CStr) :
    Crash_foreign_problem ULONG_MAX uid uid_str = true ↔
      uid_str ≠ [] ∧ ¬ strtoul_reads_as ULONG_MAX uid_str uid := by
  by_cases hs : uid_str = []
  · subst hs
    simp [Crash_foreign_problem]
  · rw [← strtoul_complete_iff ULONG_MAX uid uid_str hs]
    unfold Crash_foreign_problem
    simp only [hs, ne_eq, not_false_eq_true, if_true, true_and]
    cases (strtoul ULONG_MAX uid_str).erange <;>
      by_cases h2 : (strtoul ULONG_MAX uid_str).endptr = [] <;>
      by_cases h3 : (strtoul ULONG_MAX uid_str).value = uid <;> simp [h2, h3]

/-- On a string that does not begin with white space or a sign, `strtoul`
reads it in full as `uid` exactly when it is a decimal number in range whose
value is `uid`. -/
theorem strtoul_reads_as_plain (M uid : Nat) (s : CStr)
    (hplain : ∀ c, s.head? = some c → isspace c = false ∧ c ≠ 43 ∧ c ≠ 45) :
    strtoul_reads_as M s uid ↔
      (s ≠ [] ∧ (∀ c ∈ s, isdigit c = true) ∧ decimal_value s ≤ M ∧ uid = decimal_value s) := by
  constructor
  · rintro ⟨ws, sg, ds, hsplit, hws, hsg, hds, hdig, hrange, hn⟩
    have hwsnil : ws = [] := by
      cases ws with
      | nil => rfl
      | cons w wr =>
        have h1 := (hplain w (by simp [hsplit])).1
        have h2 := hws w (by simp)
        rw [h1] at h2
        exact absurd h2 (by simp)
    subst hwsnil
    have hsgnil : sg = [] := by
      rcases hsg with h | h | h
      · exact h
      · subst h
        exact absurd rfl (hplain 43 (by simp [hsplit])).2.1
      · subst h
        exact absurd rfl (hplain 45 (by simp [hsplit])).2.2
    subst hsgnil
    simp only [List.nil_append] at hsplit
    subst hsplit
    exact ⟨hds, hdig, hrange, by simpa using hn⟩
  · rintro ⟨hne, hdig, hrange, hn⟩
    exact ⟨[], [], s, by simp, by simp, Or.inl rfl, hne, hdig, hrange, by simpa using hn⟩

/-- C18, as stated, fails: with a 64-bit `unsigned long` and the uid 1, the
uid string "-18446744073709551615" is not a decimal number, yet `strtoul`
reads it in full as 1 and `Crash` does not classify the problem as foreign. -/
theorem C18_foreign_classification_counterexample :
    Crash_foreign_problem 18446744073709551615 1
        [45, 49, 56, 52, 52, 54, 55, 52, 52, 48, 55, 51, 55, 48, 57, 53, 53, 49, 54, 49, 53] =
      false ∧
    is_decimal_number
        [45, 49, 56, 52, 52, 54, 55, 52, 52, 48, 55, 51, 55, 48, 57, 53, 53, 49, 54, 49, 53] =
      false ∧
    claimed_foreign 1
        [45, 49, 56, 52, 52, 54, 55, 52, 52, 48, 55, 51, 55, 48, 57, 53, 53, 49, 54, 49, 53] =
      true := by
  decide

/-- C18, amended: `Crash` classifies a problem as foreign exactly when the uid
string is not empty and `strtoul` does not read it in full, without a range
error, as the uid of the process; `strtoul` skips leading white space, takes
one sign, fails on a number above `ULONG_MAX` and negates modulo
`ULONG_MAX + 1` after a minus sign.  For a uid in the range of
`unsigned long` and a uid string that does not begin with white space or a
sign this is the claimed rule: foreign exactly when the string is not empty
and is not a decimal number or its number differs from the uid.  An empty uid
string is never foreign. -/
theorem C18_foreign_classification (ULONG_MAX uid : Nat) (uid_str : CStr)
    (huid : uid ≤ ULONG_MAX)
    (hplain : ∀ c, uid_str.head? = some c → isspace c = false ∧ c ≠ 43 ∧ c ≠ 45) :
    Crash_foreign_problem ULONG_MAX uid uid_str = claimed_foreign uid uid_str ∧
    (∀ t : CStr, Crash_foreign_problem ULONG_MAX uid t = true ↔
      t ≠ [] ∧ ¬ strtoul_reads_as ULONG_MAX t uid) ∧
    Crash_foreign_problem ULONG_MAX uid [] = false := by
  refine ⟨?_, fun t => Crash_foreign_problem_iff ULONG_MAX uid t, rfl⟩
  rw [Bool.eq_iff_iff, Crash_foreign_problem_iff,
    strtoul_reads_as_plain ULONG_MAX uid uid_str hplain]
  unfold claimed_foreign is_decimal_number
  by_cases hs : uid_str = []
  · subst hs
    simp
  · have hall : (uid_str.all isdigit = true) ↔ ∀ c ∈ uid_str, isdigit c = true := by
      simp [List.all_eq_true]
    by_cases hd : ∀ c ∈ uid_str, isdigit c = true
    · have hd2 : uid_str.all isdigit = true := hall.mpr hd
      by_cases hv : decimal_value uid_str = uid
      · have hr : decimal_value uid_str ≤ ULONG_MAX := hv ▸ huid
        subst hv
        simp [hs, hd2, hr]
        exact hd
      · have hv2 : ¬ uid = decimal_value uid_str := fun h => hv h.symm
        simp [hs, hd2, hv, hv2]
    · have hd2 : uid_str.all isdigit = false := by
        rw [← Bool.not_eq_true, hall]; exact hd
      simp [hs, hd2, hd]

theorem C18_foreign_classification_witness :
    (1000 : Nat) ≤ 18446744073709551615 ∧
    (∀ c, ([49, 48, 48, 49] : CStr).head? = some c → isspace c = false ∧ c ≠ 43 ∧ c ≠ 45) ∧
    (Crash_foreign_problem 18446744073709551615 1000 [49, 48, 48, 49] =
        claimed_foreign 1000 [49, 48, 48, 49] ∧
      (∀ t : CStr, Crash_foreign_problem 18446744073709551615 1000 t = true ↔
        t ≠ [] ∧ ¬ strtoul_reads_as 18446744073709551615 t 1000) ∧
      Crash_foreign_problem 18446744073709551615 1000 [] = false) :=
  ⟨by decide, by intro c h; simp at h; subst h; decide,
    C18_foreign_classification _ _ _ (by decide)
      (by intro c h; simp at h; subst h; decide)⟩

/-! ## Facts about `show_problem_list_notification` -/

theorem autoreport_own_problems_eq (env : applet_env) (st : applet_state)
    (problems : List problem_info) :
    autoreport_own_problems env st problems =
      ((problems.filter (fun p => !p.foreign)).foldl
          (fun s p => run_event_async env s p env.autoreport_event_name) st,
        problems.filter (fun p => p.foreign)) := by
  induction problems generalizing st with
  | nil => rfl
  | cons data next ih =>
    unfold autoreport_own_problems
    cases hf : data.foreign
    · simp [hf, ih]
    · simp [hf, ih]

theorem run_event_async_fold (env : applet_env) (st : applet_state) (l : List problem_info) :
    (l.foldl (fun s p => run_event_async env s p env.autoreport_event_name) st).shown
        = st.shown ∧
      (l.foldl (fun s p => run_event_async env s p env.autoreport_event_name) st).sessions =
        st.sessions ++ l.filterMap (fun p =>
          if (problem_info_ensure_writable env p).1 then
            some ⟨[], (problem_info_ensure_writable env p).2, env.autoreport_event_name⟩
          else none) := by
  induction l generalizing st with
  | nil => simp
  | cons p rest ih =>
    simp only [List.foldl_cons]
    obtain ⟨h1, h2⟩ := ih (run_event_async env st p env.autoreport_event_name)
    rw [h1, h2]
    unfold run_event_async
    cases hw : (problem_info_ensure_writable env p).1
    · simp [hw]
    · simp [hw]

/-! ## Startup, crash signals and ownership: claims C21 to C27 -/

/-- C21: the code breaks the claim.  With a notification already announced
for another directory, a list whose only problem is suppressed still moves
`g_last_notified_problem_id` to that problem; and in a list of a shown problem
followed by a suppressed one the identifier ends on the suppressed one. -/
theorem C21_last_notified_is_last_listed :
    (notify_problem_list env_online
        { initial_state with g_last_notified_problem_id := some [47, 111] }
        [{ example_problem with dir := some [47, 110], count := 2 }]).map
        (fun r => (r.1.g_last_notified_problem_id, r.1.shown)) =
      some (some [47, 110], []) ∧
    (notify_problem_list env_online initial_state
        [example_problem, { example_problem with dir := some [47, 110], count := 2 }]).map
        (fun r => (r.1.g_last_notified_problem_id, r.1.shown)) =
      some (some [47, 110], [⟨⟨notify_format.component_auto_reported, none⟩, []⟩]) := by
  decide

/-- C22: the code breaks the claim.  A problem built at startup from a newly
discovered directory keeps the count 0 that `problem_info_new` gave it, and
reaches the handler with it; a count element holding the digit 0 gives a
problem from `Crash` the count 0 as well. -/
theorem C22_startup_problem_has_count_zero :
    name_acquired_scan (fun _ => some fresh_dump_dir) 50 [[47, 100]] [] =
      [{ problem_info_new [47, 100] with foreign := false }] ∧
    (problem_info_new [47, 100]).count = 0 ∧
    (name_acquired_handler env_online (fun _ => some fresh_dump_dir) 50 initial_state
        [[47, 100]] (some [])).map (fun r => r.1.sessions.map (fun s => s.pi.count)) =
      some [0] ∧
    (Crash_problem false ⟨some [102], some [48]⟩ ⟨[99], [47, 100], [], [], []⟩).count = 0 := by
  decide

/-- C23: the code breaks the claim.  On a missing command line `get_argv0`
reads the first entry of a vector that is `NULL`, so `create_app_from_cmdline`
faults; `notify_problem_list` faults on a problem built at startup, and so
does `name_acquired_handler` when automatic reporting is off. -/
theorem C23_missing_command_line_faults :
    get_argv0 none = none ∧
    create_app_from_cmdline env_manual none = none ∧
    (problem_info_new [47, 100]).command_line = none ∧
    notify_problem_list env_manual initial_state
      [{ problem_info_new [47, 100] with foreign := false }] = none ∧
    name_acquired_handler env_manual (fun _ => some fresh_dump_dir) 50 initial_state
      [[47, 100]] (some []) = none := by
  decide

/-- C24: the code breaks the claim.  The problem `Crash` builds is marked
packaged for every signal, also for one whose component name is empty, as the
name handed over by the signal is never `NULL`. -/
theorem C24_always_packaged (foreign_problem : Bool) (texts : dump_dir_texts)
    (ev : crash_signal) :
    (Crash_problem foreign_problem texts ev).is_packaged = true ∧
      (Crash_problem false ⟨some [102], none⟩ ⟨[], [47, 100], [], [], []⟩).is_packaged = true :=
  ⟨rfl, rfl⟩

/-- C25: the code breaks the claim.  With the same directory listed twice and
already in the persisted list, `new_dir_exists` reports it as new. -/
theorem C25_repeated_entry_reported :
    new_dir_exists [[47, 97], [47, 97]] (some [[47, 97]]) (some []) =
      ⟨some [[47, 97]], some [47, 97, 10, 47, 97, 10], true⟩ := by
  decide

/-- C26: `show_problem_list_notification` splits its list by ownership.  With
automatic reporting enabled the problems that are not foreign, and only
those, go to `run_event_async` in order, which shows nothing and starts a
session for each one that can be made writable; the foreign ones, in their
order, go to `notify_problem_list` (when there is any).  With automatic
reporting disabled the whole list goes to `notify_problem_list` and
`run_event_async` is not called. -/
theorem C26_split_by_ownership (env : applet_env) (st : applet_state)
    (problems : List problem_info) :
    autoreport_own_problems env st problems =
      ((problems.filter (fun p => !p.foreign)).foldl
          (fun s p => run_event_async env s p env.autoreport_event_name) st,
        problems.filter (fun p => p.foreign)) ∧
    (autoreport_own_problems env st problems).1.shown = st.shown ∧
    (autoreport_own_problems env st problems).1.sessions =
      st.sessions ++ (problems.filter (fun p => !p.foreign)).filterMap (fun p =>
        if (problem_info_ensure_writable env p).1 then
          some ⟨[], (problem_info_ensure_writable env p).2, env.autoreport_event_name⟩
        else none) ∧
    show_problem_list_notification env st problems =
      (if env.auto_reporting then
        (if problems.filter (fun p => p.foreign) ≠ [] then
          notify_problem_list env (autoreport_own_problems env st problems).1
            (problems.filter (fun p => p.foreign))
        else some ((autoreport_own_problems env st problems).1, []))
      else
        (if problems ≠ [] then notify_problem_list env st problems else some (st, []))) := by
  have h := autoreport_own_problems_eq env st problems
  obtain ⟨f1, f2⟩ := run_event_async_fold env st (problems.filter (fun p => !p.foreign))
  refine ⟨h, ?_, ?_, ?_⟩
  · rw [h]; exact f1
  · rw [h]; exact f2
  · unfold show_problem_list_notification
    cases env.auto_reporting
    · simp
    · simp [h]

/-- C27: a crash signal classified as foreign while the user is not an
administrator leaves everything as it was: no problem is built, no handler
started, no notification shown, and the deferred queue and the last notified
identifier are unchanged. -/
theorem C27_foreign_signal_dropped (ULONG_MAX uid : Nat) (g_user_is_admin : Bool)
    (env : applet_env) (load : CStr → dump_dir_texts) (st : applet_state) (ev : crash_signal)
    (hforeign : Crash_foreign_problem ULONG_MAX uid ev.uid_str = true)
    (hadmin : g_user_is_admin = false) :
    Crash ULONG_MAX uid g_user_is_admin env load st ev = some (st, []) := by
  simp [Crash, hforeign, hadmin]

theorem C27_foreign_signal_dropped_witness :
    Crash_foreign_problem 18446744073709551615 1000
        (⟨[99], [47, 100], [49, 48, 48, 49], [], []⟩ : crash_signal).uid_str = true ∧
    false = false ∧
    Crash 18446744073709551615 1000 false env_online (fun _ => ⟨some [102], none⟩)
        initial_state ⟨[99], [47, 100], [49, 48, 48, 49], [], []⟩ = some (initial_state, []) :=
  ⟨by decide, rfl,
    C27_foreign_signal_dropped 18446744073709551615 1000 false env_online _ initial_state
      ⟨[99], [47, 100], [49, 48, 48, 49], [], []⟩ (by decide) rfl⟩

/-! ## Facts about `compare_args` -/

/-- One pass of the loop of `compare_args` that does not return moves the
template index forward by one, or leaves it and moves the command-line index
forward by one from a position inside the command line. -/
theorem compare_args_step_advances (cmdargs dcmdargs : List CStr) (cargi dargi : Nat) :
    match compare_args_step cmdargs dcmdargs cargi dargi with
    | .ret _ => True
    | .next cargi1 dargi1 =>
      (dargi1 = dargi + 1 ∧ cargi ≤ cargi1) ∨
        (dargi1 = dargi ∧ cargi1 = cargi + 1 ∧ cargi < cmdargs.length) := by
  unfold compare_args_step
  simp only
  split_ifs with h1 h2 h3 h4 h5 h6 h7 h8 h9 h10 h11
  all_goals simp only [true_and, le_refl, Nat.le_add_right, true_or, and_self]
  all_goals first
    | trivial
    | (simp only [Bool.or_eq_true, decide_eq_true_eq, not_or, not_le] at *
       right
       omega)

theorem compare_args_loop_some (cmdargs dcmdargs : List CStr) (fuel cargi dargi : Nat)
    (h : compare_args_measure cmdargs dcmdargs cargi dargi < fuel) :
    ∃ b, compare_args_loop cmdargs dcmdargs fuel cargi dargi = some b := by
  induction fuel generalizing cargi dargi with
  | zero => omega
  | succ fuel ih =>
    unfold compare_args_loop
    split_ifs with hd
    · have hstep := compare_args_step_advances cmdargs dcmdargs cargi dargi
      cases hs : compare_args_step cmdargs dcmdargs cargi dargi with
      | ret value => exact ⟨value, rfl⟩
      | next cargi1 dargi1 =>
        rw [hs] at hstep
        simp only at hstep
        apply ih
        unfold compare_args_measure at h ⊢
        rcases hstep with ⟨e1, e2⟩ | ⟨e1, e2, e3⟩
        · subst e1; omega
        · subst e1 e2; omega
    · exact ⟨_, rfl⟩

theorem compare_args_loop_mono (cmdargs dcmdargs : List CStr) (fuel extra cargi dargi : Nat)
    (b : Bool) (h : compare_args_loop cmdargs dcmdargs fuel cargi dargi = some b) :
    compare_args_loop cmdargs dcmdargs (fuel + extra) cargi dargi = some b := by
  induction fuel generalizing cargi dargi with
  | zero => simp [compare_args_loop] at h
  | succ fuel ih =>
    have hf : fuel + 1 + extra = (fuel + extra) + 1 := by omega
    rw [hf]
    unfold compare_args_loop at h ⊢
    split_ifs at h ⊢ with hd
    · cases hs : compare_args_step cmdargs dcmdargs cargi dargi with
      | ret value => rw [hs] at h; exact h
      | next cargi1 dargi1 =>
        rw [hs] at h
        exact ih cargi1 dargi1 h
    · exact h

/-! ## Matching a command line and pending events: claims C28 to C30 -/

/-- C28: the code breaks the claim.  With the single-file field code as the
only template argument, `compare_args` answers the opposite of whether the
command-line argument is a file argument: a file argument such as a.txt is
refused, an option such as -x is accepted. -/
theorem C28_single_file_code_inverted (b x : CStr) :
    compare_args [b, x] [b, field_code 102] = some (!_is_it_file_arg (some x)) ∧
    _is_it_file_arg (some [97, 46, 116, 120, 116]) = true ∧
    compare_args [[103, 101, 100, 105, 116], [97, 46, 116, 120, 116]]
      [[103, 101, 100, 105, 116], field_code 102] = some false := by
  refine ⟨?_, by decide, by decide⟩
  cases hx : _is_it_file_arg (some x)
  · simp [compare_args, compare_args_loop, compare_args_step, field_code, hx]
  · simp [compare_args, compare_args_loop, compare_args_step, field_code, hx]

/-- C29: `compare_args` returns for every pair of argument vectors, and more
passes than it is given change nothing.  A pass of its loop that does not
return moves the template index forward by one, or leaves it and moves the
command-line index forward by one from a position inside the command line, so
the command-line index gets past the end only together with a step of the
template index. -/
theorem C29_compare_args_terminates (cmdargs dcmdargs : List CStr) :
    (∃ b, compare_args cmdargs dcmdargs = some b) ∧
    (∀ extra, compare_args_loop cmdargs dcmdargs
        (cmdargs.length + dcmdargs.length + 1 + extra) 1 1 = compare_args cmdargs dcmdargs) ∧
    (∀ cargi dargi,
      match compare_args_step cmdargs dcmdargs cargi dargi with
      | .ret _ => True
      | .next cargi1 dargi1 =>
        (dargi1 = dargi + 1 ∧ cargi ≤ cargi1) ∨
          (dargi1 = dargi ∧ cargi1 = cargi + 1 ∧ cargi < cmdargs.length)) := by
  have hsome : ∃ b, compare_args cmdargs dcmdargs = some b := by
    unfold compare_args
    apply compare_args_loop_some
    unfold compare_args_measure
    omega
  refine ⟨hsome, ?_, compare_args_step_advances cmdargs dcmdargs⟩
  intro extra
  obtain ⟨b, hb⟩ := hsome
  rw [hb]
  exact compare_args_loop_mono cmdargs dcmdargs _ extra 1 1 b hb

/-- C30: the code breaks the claim.  After `AddEvent` with the program name
firefox the entry of the key holds the text pProgname, not the name given;
the call returns 0 and replaces an earlier entry, and `RemoveEvent` removes
the entry. -/
theorem C30_add_event_stores_literal :
    (CApplet.AddEvent (fun _ => none) 7 [102, 105, 114, 101, 102, 111, 120]).1 7 =
      some [112, 80, 114, 111, 103, 110, 97, 109, 101] ∧
    (CApplet.AddEvent (fun _ => none) 7 [102, 105, 114, 101, 102, 111, 120]).1 7 ≠
      some [102, 105, 114, 101, 102, 111, 120] ∧
    (CApplet.AddEvent (fun _ => none) 7 [102, 105, 114, 101, 102, 111, 120]).2 = 0 ∧
    (CApplet.RemoveEvent
      (CApplet.AddEvent (fun _ => none) 7 [102, 105, 114, 101, 102, 111, 120]).1 7).1 7
      = none := by
  decide

end Applet
